import Mathlib

/-!
Verification development for the four-agent enrichment pipeline
(query resolution, evidence gathering, fact reconciliation, schema proposal).

The Python sources are shallowly embedded: Python values are modelled by the
inductive `PyVal` (with `Rat` standing in for `float`, so IEEE artefacts such
as NaN are outside the model), Python dicts by association lists in insertion
order with `dictInsert` mirroring dict assignment, Python sets by lists in an
iteration order taken as input, and every string primitive is re-implemented
over `List Char` at ASCII fidelity (Python's `str.upper`, `str.lower`,
`str.strip`, `re` character classes are Unicode-aware; only their ASCII
behaviour is modelled, which covers all inputs exercised here).

Fallible collaborators (completion clients, search clients) are modelled as
functions returning `Except`, so a Python exception corresponds to an
`Except.error` value and "the exception escapes the method" corresponds to the
method's result being an `error`.
-/

/-- Model of a Python value as passed around the pipeline: `none`, `bool`,
`int`, `float` (as `Rat`), `str`, `list` (also standing in for tuples and
sets where the source only measures their length), `dict` with string keys. -/
inductive PyVal where
  | none
  | b (x : Bool)
  | i (x : Int)
  | f (x : Rat)
  | s (x : String)
  | list (xs : List PyVal)
  | dict (xs : List (String × PyVal))
deriving Repr

mutual

def PyVal.beq : PyVal → PyVal → Bool
  | .none, .none => true
  | .b x, .b y => x == y
  | .i x, .i y => x == y
  | .f x, .f y => x == y
  | .s x, .s y => x == y
  | .list xs, .list ys => PyVal.beqList xs ys
  | .dict xs, .dict ys => PyVal.beqDict xs ys
  | _, _ => false

def PyVal.beqList : List PyVal → List PyVal → Bool
  | [], [] => true
  | a :: as, c :: cs => PyVal.beq a c && PyVal.beqList as cs
  | _, _ => false

def PyVal.beqDict : List (String × PyVal) → List (String × PyVal) → Bool
  | [], [] => true
  | (k, v) :: as, (k2, v2) :: cs => k == k2 && PyVal.beq v v2 && PyVal.beqDict as cs
  | _, _ => false

end

mutual

theorem PyVal.beq_iff : ∀ a c : PyVal, PyVal.beq a c = true ↔ a = c
  | .none, .none => by simp [PyVal.beq]
  | .b _, .b _ => by simp [PyVal.beq]
  | .i _, .i _ => by simp [PyVal.beq]
  | .f _, .f _ => by simp [PyVal.beq]
  | .s _, .s _ => by simp [PyVal.beq]
  | .list xs, .list ys => by simpa [PyVal.beq] using PyVal.beqList_iff xs ys
  | .dict xs, .dict ys => by simpa [PyVal.beq] using PyVal.beqDict_iff xs ys
  | .none, .b _ => by simp [PyVal.beq]
  | .none, .i _ => by simp [PyVal.beq]
  | .none, .f _ => by simp [PyVal.beq]
  | .none, .s _ => by simp [PyVal.beq]
  | .none, .list _ => by simp [PyVal.beq]
  | .none, .dict _ => by simp [PyVal.beq]
  | .b _, .none => by simp [PyVal.beq]
  | .b _, .i _ => by simp [PyVal.beq]
  | .b _, .f _ => by simp [PyVal.beq]
  | .b _, .s _ => by simp [PyVal.beq]
  | .b _, .list _ => by simp [PyVal.beq]
  | .b _, .dict _ => by simp [PyVal.beq]
  | .i _, .none => by simp [PyVal.beq]
  | .i _, .b _ => by simp [PyVal.beq]
  | .i _, .f _ => by simp [PyVal.beq]
  | .i _, .s _ => by simp [PyVal.beq]
  | .i _, .list _ => by simp [PyVal.beq]
  | .i _, .dict _ => by simp [PyVal.beq]
  | .f _, .none => by simp [PyVal.beq]
  | .f _, .b _ => by simp [PyVal.beq]
  | .f _, .i _ => by simp [PyVal.beq]
  | .f _, .s _ => by simp [PyVal.beq]
  | .f _, .list _ => by simp [PyVal.beq]
  | .f _, .dict _ => by simp [PyVal.beq]
  | .s _, .none => by simp [PyVal.beq]
  | .s _, .b _ => by simp [PyVal.beq]
  | .s _, .i _ => by simp [PyVal.beq]
  | .s _, .f _ => by simp [PyVal.beq]
  | .s _, .list _ => by simp [PyVal.beq]
  | .s _, .dict _ => by simp [PyVal.beq]
  | .list _, .none => by simp [PyVal.beq]
  | .list _, .b _ => by simp [PyVal.beq]
  | .list _, .i _ => by simp [PyVal.beq]
  | .list _, .f _ => by simp [PyVal.beq]
  | .list _, .s _ => by simp [PyVal.beq]
  | .list _, .dict _ => by simp [PyVal.beq]
  | .dict _, .none => by simp [PyVal.beq]
  | .dict _, .b _ => by simp [PyVal.beq]
  | .dict _, .i _ => by simp [PyVal.beq]
  | .dict _, .f _ => by simp [PyVal.beq]
  | .dict _, .s _ => by simp [PyVal.beq]
  | .dict _, .list _ => by simp [PyVal.beq]

theorem PyVal.beqList_iff : ∀ xs ys : List PyVal, PyVal.beqList xs ys = true ↔ xs = ys
  | [], [] => by simp [PyVal.beqList]
  | a :: as, c :: cs => by
      simp [PyVal.beqList, PyVal.beq_iff a c, PyVal.beqList_iff as cs]
  | [], _ :: _ => by simp [PyVal.beqList]
  | _ :: _, [] => by simp [PyVal.beqList]

theorem PyVal.beqDict_iff :
    ∀ xs ys : List (String × PyVal), PyVal.beqDict xs ys = true ↔ xs = ys
  | [], [] => by simp [PyVal.beqDict]
  | (k, v) :: as, (k2, v2) :: cs => by
      simp [PyVal.beqDict, PyVal.beq_iff v v2, PyVal.beqDict_iff as cs, Prod.ext_iff,
        and_assoc]
  | [], _ :: _ => by simp [PyVal.beqDict]
  | _ :: _, [] => by simp [PyVal.beqDict]

end

instance : DecidableEq PyVal := fun a c => decidable_of_iff _ (PyVal.beq_iff a c)

/-- Python truthiness (`if value:`) on the modelled values. -/
def pyTruthy : PyVal → Bool
  | PyVal.none => false
  | PyVal.b x => x
  | PyVal.i x => x != 0
  | PyVal.f x => x != 0
  | PyVal.s x => x != ""
  | PyVal.list xs => !xs.isEmpty
  | PyVal.dict xs => !xs.isEmpty

/-- Python `value is None`. -/
def pyIsNone : PyVal → Bool
  | PyVal.none => true
  | _ => false

/-- Decimal rendering of a nonnegative rational scaled by `10^k` (helper for
the float `repr` model). -/
def decimalOfRat (q : Rat) (k : Nat) : String :=
  let scaled := (q * (10 : Rat) ^ k).num.toNat
  let ds := toString scaled
  let ds := if ds.length ≤ k then (⟨List.replicate (k + 1 - ds.length) '0'⟩ : String) ++ ds else ds
  let ip : String := ⟨ds.data.take (ds.length - k)⟩
  let fp : String := ⟨ds.data.drop (ds.length - k)⟩
  ip ++ "." ++ fp

def findScaleGo (q : Rat) (k fuel : Nat) : Option Nat :=
  match fuel with
  | 0 => Option.none
  | fuel + 1 => if (q * (10 : Rat) ^ k).den = 1 then some k else findScaleGo q (k + 1) fuel

/-- Python's `repr()` of a float, modelled on decimally-terminating rationals
(Python prints the shortest round-tripping decimal; for every decimal literal
appearing in these claims the two agree). -/
def pyReprFloat (q : Rat) : String :=
  let sign := if q < 0 then "-" else ""
  let p := |q|
  match findScaleGo p 0 40 with
  | some 0 => sign ++ toString p.num ++ ".0"
  | some k => sign ++ decimalOfRat p k
  | Option.none => sign ++ toString p.num ++ "/" ++ toString p.den

mutual

/-- Python's `repr()` on the modelled values (string-escape rules elided:
strings are wrapped in single quotes verbatim). -/
def pyRepr : PyVal → String
  | PyVal.none => "None"
  | PyVal.b true => "True"
  | PyVal.b false => "False"
  | PyVal.i x => toString x
  | PyVal.f x => pyReprFloat x
  | PyVal.s x => "'" ++ x ++ "'"
  | PyVal.list xs => "[" ++ pyReprList xs ++ "]"
  | PyVal.dict xs => "\x7b" ++ pyReprDict xs ++ "\x7d"

def pyReprList : List PyVal → String
  | [] => ""
  | [x] => pyRepr x
  | x :: rest => pyRepr x ++ ", " ++ pyReprList rest

def pyReprDict : List (String × PyVal) → String
  | [] => ""
  | [(k, v)] => "'" ++ k ++ "': " ++ pyRepr v
  | (k, v) :: rest => "'" ++ k ++ "': " ++ pyRepr v ++ ", " ++ pyReprDict rest

end

/-- Python's `str()`: identity on strings, `repr` otherwise. -/
def pyStr : PyVal → String
  | PyVal.s x => x
  | v => pyRepr v

/-- Membership lookup on a modelled dict (`d.get(k)`), first matching key. -/
def dictGet? {α : Type} (d : List (String × α)) (k : String) : Option α :=
  (d.find? (fun p => p.1 == k)).map (·.2)

/-- Python dict assignment `d[k] = v`: overwrite in place when the key exists
(keeping its position), append otherwise. -/
def dictInsert {α : Type} (d : List (String × α)) (k : String) (v : α) :
    List (String × α) :=
  if d.any (fun p => p.1 == k) then d.map (fun p => if p.1 == k then (k, v) else p)
  else d ++ [(k, v)]

/-- `payload.get(key)` on a `PyVal.dict`; `none` when the value is not a dict
or the key is absent. -/
def pyGet (v : PyVal) (k : String) : Option PyVal :=
  match v with
  | PyVal.dict d => dictGet? d k
  | _ => Option.none

/-- `payload.get(key)` with Python's `None` default. -/
def pyGetD (v : PyVal) (k : String) : PyVal := (pyGet v k).getD PyVal.none

/-- The whitespace class of Python's `str.strip` and the regex class `\s`,
restricted to ASCII. -/
def isPyWsChar (c : Char) : Bool :=
  c = ' ' || c = '\t' || c = '\n' || c = '\r' || c = '\x0b' || c = '\x0c'

def pyStripChars (cs : List Char) : List Char :=
  ((cs.dropWhile isPyWsChar).reverse.dropWhile isPyWsChar).reverse

/-- Python's `str.strip()` (ASCII whitespace). -/
def pyStrip (s : String) : String := ⟨pyStripChars s.data⟩

/-- Python's `str.upper()` (ASCII). -/
def asciiUpper (s : String) : String := ⟨s.data.map Char.toUpper⟩

/-- Python's `str.lower()` (ASCII). -/
def asciiLower (s : String) : String := ⟨s.data.map Char.toLower⟩

def isUpperAlnumChar (c : Char) : Bool := c.isUpper || c.isDigit

def isLowerAlnumChar (c : Char) : Bool := c.isLower || c.isDigit

/-- Collapse consecutive underscores to one, mirroring that the source's
`re.sub` replaces each maximal run of non-alphanumerics by one underscore. -/
def collapseRuns : List Char → List Char
  | [] => []
  | [c] => [c]
  | c :: d :: rest =>
      if c = '_' && d = '_' then collapseRuns (d :: rest)
      else c :: collapseRuns (d :: rest)

/-- Python's `.strip("_")`. -/
def stripUnderscores (cs : List Char) : List Char :=
  ((cs.dropWhile (fun c => c == '_')).reverse.dropWhile (fun c => c == '_')).reverse

/-- `UpdateAgent._normalize_label`: uppercase, replace each run of
non-`[A-Z0-9]` by `_`, strip outer underscores. -/
def normalizeLabel (label : String) : String :=
  ⟨stripUnderscores (collapseRuns
    ((label.data.map Char.toUpper).map (fun c => if isUpperAlnumChar c then c else '_')))⟩

/-- Python's `str.split(sep)` for a one-character separator. -/
def splitOnCharGo (sep : Char) : List Char → List (List Char)
  | [] => [[]]
  | c :: rest =>
      let r := splitOnCharGo sep rest
      if c == sep then [] :: r
      else
        match r with
        | [] => [[c]]
        | h :: t => (c :: h) :: t

/-- `UpdateAgent._tokens_from_label`: the lowercase alphanumeric tokens of a
label (the source builds a set; a list in order of appearance models it, all
uses being membership tests). -/
def tokensFromLabel (label : String) : List String :=
  let normalized := normalizeLabel label
  if normalized = "" then []
  else ((splitOnCharGo '_' normalized.data).filter (fun t => !t.isEmpty)).map
    (fun t => (⟨t.map Char.toLower⟩ : String))

/-- `concept_tokens.issubset(tokens)`. -/
def subsetTokens (a c : List String) : Bool := a.all (fun t => c.contains t)

/-- Order-preserving deduplication, modelling Python set construction from a
list whose iteration order is the insertion order. -/
def dedupGo (seen : List String) : List String → List String
  | [] => []
  | x :: rest => if seen.contains x then dedupGo seen rest else x :: dedupGo (x :: seen) rest

def dedupKeepFirst (l : List String) : List String := dedupGo [] l

/-- Lexicographic comparison of strings by code point, as Python compares. -/
def charListLe : List Char → List Char → Bool
  | [], _ => true
  | _ :: _, [] => false
  | a :: as, c :: cs =>
      if a.val < c.val then true else if c.val < a.val then false else charListLe as cs

def insertSortedString (x : String) : List String → List String
  | [] => [x]
  | y :: rest =>
      if charListLe y.data x.data then y :: insertSortedString x rest
      else x :: y :: rest

/-- Python's `sorted` on strings (stable insertion sort, ascending). -/
def sortedStrings (l : List String) : List String :=
  l.foldl (fun acc x => insertSortedString x acc) []

/-- One resolved fact as handed to `UpdateAgent.apply_enrichment`. The source
reads the `concept`, `value` and `candidate_columns` keys of each fact dict;
the data model fixes `concept` as a string and `candidate_columns` as a list
of strings, which is the domain modelled here. -/
structure FactIn where
  concept : String := ""
  value : PyVal := PyVal.none
  candidateColumns : Option (List String) := Option.none
deriving DecidableEq, Repr

/-- `UpdateAgent._coerce_candidate_columns`: keep the stripped nonempty
entries. -/
def coerceCandidateColumns : Option (List String) → List String
  | Option.none => []
  | some vs =>
      vs.filterMap (fun v => let t := pyStrip v; if t = "" then Option.none else some t)

/-- `UpdateAgent` after `__post_init__`: the normalized allowed-fields set and
the two lookup tables built from it. The Python set's iteration order is
modelled by the input list's order. The optional reasoning LLM is modelled by
the outcome of its (single) completion call: `Except.error` for a raised
exception, `Except.ok` for the extracted response text. -/
structure UpdateAgentM where
  allowedFields : Option (List String)
  columnLookup : List (String × String)
  columnTokens : List (String × List String)
  reasoningLLM : Option (Except Unit (Option String))

/-- `UpdateAgent._build_column_lookup`. -/
def buildColumnLookup (columns : List String) : List (String × String) :=
  columns.foldl
    (fun lookup column =>
      if column = "" then lookup
      else
        let upper := asciiUpper column
        let lookup := dictInsert lookup upper upper
        let sanitized := normalizeLabel upper
        if sanitized = "" then lookup else dictInsert lookup sanitized upper)
    []

/-- `UpdateAgent._build_column_tokens`. -/
def buildColumnTokens (columns : List String) : List (String × List String) :=
  columns.foldl
    (fun tokens column =>
      let normalized := normalizeLabel column
      if normalized = "" then tokens
      else dictInsert tokens (asciiUpper column) (tokensFromLabel column))
    []

/-- `UpdateAgent.__post_init__`: normalize the allowed fields (strip, upper,
drop blanks, set-deduplicate) and build the lookup tables. -/
def mkUpdateAgent (allowed : Option (List String))
    (reasoningLLM : Option (Except Unit (Option String)) := Option.none) : UpdateAgentM :=
  let normalizedFields := allowed.map
    (fun fs => dedupKeepFirst ((fs.map (fun f => asciiUpper (pyStrip f))).filter (fun f => f ≠ "")))
  let base := normalizedFields.getD []
  { allowedFields := normalizedFields
    columnLookup := buildColumnLookup base
    columnTokens := buildColumnTokens base
    reasoningLLM }

/-- `UpdateAgent._resolve_candidate_column`. -/
def resolveCandidateColumn (a : UpdateAgentM) (candidate : String) : Option String :=
  let normalized := normalizeLabel candidate
  if normalized = "" then Option.none else dictGet? a.columnLookup normalized

/-- `UpdateAgent._match_fact_to_column`. -/
def matchFactToColumn (a : UpdateAgentM) (concept : String)
    (candidateColumns : List String) : Option String :=
  match a.allowedFields with
  | Option.none =>
      match candidateColumns.findSome?
          (fun c => let n := normalizeLabel c; if n = "" then Option.none else some n) with
      | some n => some n
      | Option.none =>
          let n := normalizeLabel concept
          if n = "" then Option.none else some n
  | some _ =>
      match candidateColumns.findSome? (resolveCandidateColumn a) with
      | some r => some r
      | Option.none =>
          let n := normalizeLabel concept
          match (if n = "" then Option.none else dictGet? a.columnLookup n) with
          | some r => some r
          | Option.none =>
              let ts := tokensFromLabel concept
              if ts.isEmpty then Option.none
              else
                match a.columnTokens.filter (fun p => subsetTokens ts p.2) with
                | [m] => some m.1
                | _ => Option.none

/-- `UpdateAgent._has_value` (the query agent's identical helper is shared). -/
def hasValue : PyVal → Bool
  | PyVal.none => false
  | PyVal.s t => pyStrip t != ""
  | PyVal.list xs => !xs.isEmpty
  | PyVal.dict xs => !xs.isEmpty
  | _ => true

/-- One entry of `applied_details`. -/
structure AppliedDetail where
  concept : String
  column : String
  value : PyVal
  candidates : List String
deriving DecidableEq, Repr

/-- The dict appended to `unmatched_facts` for a fact that matched no column. -/
def unmatchedEntry (concept : String) (value : PyVal) (candidates : List String) : PyVal :=
  PyVal.dict
    [("concept", PyVal.s concept), ("value", value),
     ("candidate_columns", PyVal.list (candidates.map PyVal.s))]

/-- The dict appended to `empty_facts` for a fact with no usable value. -/
def emptyEntry (concept : String) (candidates : List String) : PyVal :=
  PyVal.dict
    [("concept", PyVal.s concept),
     ("candidate_columns", PyVal.list (candidates.map PyVal.s))]

/-- The four accumulators of the `apply_enrichment` loop. -/
structure ReconState where
  appliedUpdates : List (String × PyVal)
  appliedDetails : List AppliedDetail
  unmatchedFacts : List PyVal
  emptyFacts : List PyVal
deriving DecidableEq, Repr

/-- The body of the per-fact loop in `UpdateAgent.apply_enrichment`. -/
def reconStep (a : UpdateAgentM) (st : ReconState) (fact : FactIn) : ReconState :=
  let concept := pyStrip fact.concept
  let value := fact.value
  let candidates := coerceCandidateColumns fact.candidateColumns
  if !hasValue value then
    { st with emptyFacts := st.emptyFacts ++ [emptyEntry concept candidates] }
  else
    match matchFactToColumn a concept candidates with
    | some column =>
        { st with
          appliedUpdates := dictInsert st.appliedUpdates column value
          appliedDetails := st.appliedDetails ++
            [{ concept := if concept = "" then column else concept
               column := column, value := value, candidates := candidates }] }
    | Option.none =>
        { st with unmatchedFacts := st.unmatchedFacts ++ [unmatchedEntry concept value candidates] }

/-- The full per-fact loop of `UpdateAgent.apply_enrichment`. -/
def reconcileFacts (a : UpdateAgentM) (facts : List FactIn) : ReconState :=
  facts.foldl (reconStep a) ⟨[], [], [], []⟩

/-- The escalation dict assembled from the nonempty buckets. -/
def escalationPayload (st : ReconState) : Option PyVal :=
  let pairs :=
    (if st.unmatchedFacts.isEmpty then [] else [("unmatched_facts", PyVal.list st.unmatchedFacts)]) ++
    (if st.emptyFacts.isEmpty then [] else [("empty_facts", PyVal.list st.emptyFacts)])
  if pairs.isEmpty then Option.none else some (PyVal.dict pairs)

/-- The structured result of `apply_enrichment`, together with the outbound
collaborator calls it made (`crm_client.update_record` and
`schema_escalator.escalate`). Optional summary keys are `Option` fields. -/
structure EnrichmentSummary where
  ticketId : String
  recordId : String
  factCount : Nat
  status : String
  appliedColumns : Option (List String)
  appliedFacts : Option (List AppliedDetail)
  escalated : Option PyVal
  reasoning : Option String
  crmWrites : List (String × List (String × PyVal))
  escalateCalls : List (String × PyVal)
deriving DecidableEq, Repr

/-- `UpdateAgent._generate_reasoning`: no LLM or a raised completion call
yields `None`; prompt construction (pure string formatting) is elided and the
call outcome is the agent's `reasoningLLM` field. -/
def generateReasoning (a : UpdateAgentM) : Option String :=
  match a.reasoningLLM with
  | Option.none => Option.none
  | some (Except.error _) => Option.none
  | some (Except.ok t) => t

/-- `UpdateAgent.apply_enrichment` on an already-coerced fact list (the
flat-map compatibility shim `_coerce_fact_sequence` turns a field→value map
into `[⟨key, value⟩]` facts; claims here use the fact-list form). -/
def applyEnrichment (a : UpdateAgentM) (ticketId recordId : String)
    (facts : List FactIn) : EnrichmentSummary :=
  if facts.isEmpty then
    { ticketId, recordId, factCount := 0, status := "skipped"
      appliedColumns := Option.none, appliedFacts := Option.none
      escalated := Option.none, reasoning := Option.none
      crmWrites := [], escalateCalls := [] }
  else
    let st := reconcileFacts a facts
    let applied := !st.appliedUpdates.isEmpty
    let esc := escalationPayload st
    let reasoning :=
      match generateReasoning a with
      | some t => if t = "" then Option.none else some t
      | Option.none => Option.none
    { ticketId, recordId, factCount := facts.length
      status := if applied then "updated" else "skipped"
      appliedColumns := if applied then some (sortedStrings (st.appliedUpdates.map (·.1))) else Option.none
      appliedFacts := if applied then some st.appliedDetails else Option.none
      escalated := esc
      reasoning
      crmWrites := if applied then [(recordId, st.appliedUpdates)] else []
      escalateCalls := match esc with | some p => [(ticketId, p)] | Option.none => [] }

/-- Python's `str.replace(pat, rep)` (all occurrences, left to right; the
source never calls it with an empty pattern). -/
def replaceAllGo (pat rep : List Char) : Nat → List Char → List Char
  | 0, cs => cs
  | _ + 1, [] => []
  | fuel + 1, c :: rest =>
      if pat.isPrefixOf (c :: rest) then
        rep ++ replaceAllGo pat rep fuel ((c :: rest).drop pat.length)
      else c :: replaceAllGo pat rep fuel rest

def replaceAllStr (s pat rep : String) : String :=
  if pat = "" then s else ⟨replaceAllGo pat.data rep.data s.data.length s.data⟩

/-- One proposed column of a schema proposal. -/
structure ColumnProposal where
  name : String
  dataType : String
  nullable : Bool
  description : String
deriving DecidableEq, Repr

/-- The dict returned by `SchemaAgent.propose_change`. -/
structure SchemaProposalResult where
  ticketId : String
  columns : List ColumnProposal
  migrationPath : Option String
  migrationStatements : List String
  notes : Option String
deriving DecidableEq, Repr

/-- `SchemaAgent._normalize_name`: strip, lower, spaces and hyphens to
underscores, then upper. -/
def normalizeName (raw : String) : String :=
  asciiUpper (replaceAllStr (replaceAllStr (asciiLower (pyStrip raw)) " " "_") "-" "_")

/-- `SchemaAgent._infer_sql_type` (Python checks `bool` before `int`;
tuples and other types fall to `TEXT`). -/
def inferSqlType : PyVal → String
  | PyVal.b _ => "BOOLEAN"
  | PyVal.i _ => "INTEGER"
  | PyVal.f _ => "NUMERIC"
  | PyVal.dict _ => "JSONB"
  | PyVal.list _ => "JSONB"
  | _ => "TEXT"

/-- `SchemaAgent._describe_source`: `repr` of the sample truncated at 80. -/
def describeSource (sample : PyVal) : String :=
  let r := pyRepr sample
  let r := if r.length > 80 then (⟨r.data.take 77⟩ : String) ++ "..." else r
  "Inferred from sample value " ++ r

/-- One LLM proposal item (`_generate_proposals` loop body): an entry is kept
when both `name` and `data_type`/`datatype` are truthy; names are restricted
to strings (a non-string name would raise inside `_normalize_name`, outside
the modelled domain). -/
def parseProposalItem (item : PyVal) : Option ColumnProposal :=
  match item with
  | PyVal.dict _ =>
      let name := pyGetD item "name"
      let dataType :=
        if pyTruthy (pyGetD item "data_type") then pyGetD item "data_type"
        else pyGetD item "datatype"
      let nullable := (pyGet item "nullable").getD (PyVal.b true)
      let description := (pyGet item "description").getD (PyVal.s "")
      if pyTruthy name && pyTruthy dataType then
        match name with
        | PyVal.s n =>
            some { name := normalizeName n, dataType := asciiUpper (pyStr dataType)
                   nullable := pyTruthy nullable, description := pyStr description }
        | _ => Option.none
      else Option.none
  | _ => Option.none

/-- `SchemaAgent._generate_proposals`: no LLM or a raised completion call
yields `[]`; otherwise the response's parsed JSON list (the duck-typed
`_extract_schema_json` traversal is the model boundary) is filtered
entry-wise. -/
def generateProposals : Option (Except Unit (List PyVal)) → List ColumnProposal
  | Option.none => []
  | some (Except.error _) => []
  | some (Except.ok items) => items.filterMap parseProposalItem

/-- `SchemaAgent.propose_change`. The migration writer is a state-threading
function `write`; `Except.error` models the `AttributeError` raised when the
static fallback iterates `.items()` on a non-dict `unknown_fields` value. -/
def proposeChange {σ : Type} (write : σ → String → List String → String × σ)
    (llmOutcome : Option (Except Unit (List PyVal))) (tableName : String)
    (st : σ) (ticketId : String) (evidenceSummary : PyVal) :
    Except String SchemaProposalResult × σ :=
  let unknownFields := (pyGet evidenceSummary "unknown_fields").getD (PyVal.dict [])
  if !pyTruthy unknownFields then
    (Except.ok
      { ticketId, columns := [], migrationPath := Option.none
        migrationStatements := [], notes := some "No unknown fields supplied" }, st)
  else
    let llmProposals := generateProposals llmOutcome
    match (if llmProposals.isEmpty then
            match unknownFields with
            | PyVal.dict pairs =>
                Except.ok (pairs.map (fun p =>
                  ({ name := normalizeName p.1, dataType := inferSqlType p.2
                     nullable := true, description := describeSource p.2 } : ColumnProposal)))
            | _ => Except.error "AttributeError: unknown_fields has no items method"
          else Except.ok llmProposals : Except String (List ColumnProposal)) with
    | Except.error e => (Except.error e, st)
    | Except.ok proposals =>
        let statements := proposals.map (fun p =>
          "ALTER TABLE " ++ tableName ++ " ADD COLUMN IF NOT EXISTS \"" ++ p.name ++ "\" "
            ++ p.dataType ++ ";")
        let migrationName := "ticket_" ++ asciiLower ticketId
        let ps := write st migrationName statements
        (Except.ok
          { ticketId, columns := proposals, migrationPath := some ps.1
            migrationStatements := statements, notes := Option.none }, ps.2)

/-- The stub migration writer of the agent's test suite: returns a fixed path
and records the call. -/
def stubWriterPath : String := "schema/migrations/20240101000000_ticket.sql"

def stubWrite (st : List (String × List String)) (name : String)
    (statements : List String) : String × List (String × List String) :=
  (stubWriterPath, st ++ [(name, statements)])

/-- The escalation-to-proposal handoff in `run_scenario`: when the update
summary carries an escalation, that payload is passed verbatim as the schema
proposer's evidence summary. -/
def escalationToProposal {σ : Type} (write : σ → String → List String → String × σ)
    (llmOutcome : Option (Except Unit (List PyVal))) (tableName : String)
    (st : σ) (ticketId : String) (summary : EnrichmentSummary) :
    Option (Except String SchemaProposalResult × σ) :=
  match summary.escalated with
  | some payload => some (proposeChange write llmOutcome tableName st ticketId payload)
  | Option.none => Option.none

theorem mem_dictInsert {α : Type} (d : List (String × α)) (k : String) (v : α)
    (p : String × α) (h : p ∈ dictInsert d k v) : p ∈ d ∨ p = (k, v) := by
  unfold dictInsert at h
  split at h
  · rcases List.mem_map.mp h with ⟨q, hq, hq2⟩
    by_cases hk : q.1 == k
    · right; simpa [hk] using hq2.symm
    · left; simp only [hk, if_false] at hq2; exact hq2 ▸ hq
  · rcases List.mem_append.mp h with h | h
    · exact Or.inl h
    · exact Or.inr (List.mem_singleton.mp h)

theorem reconStep_applied_sub (a : UpdateAgentM) (st : ReconState) (fact : FactIn)
    (p : String × PyVal) (h : p ∈ (reconStep a st fact).appliedUpdates) :
    p ∈ st.appliedUpdates ∨
      (hasValue fact.value = true ∧
        matchFactToColumn a (pyStrip fact.concept) (coerceCandidateColumns fact.candidateColumns) = some p.1 ∧
        p.2 = fact.value) := by
  unfold reconStep at h
  rcases hv : hasValue fact.value with _ | _
  · simp only [hv, Bool.not_false, if_true] at h
    exact Or.inl h
  · simp only [hv, Bool.not_true, if_false] at h
    rcases hm : matchFactToColumn a (pyStrip fact.concept) (coerceCandidateColumns fact.candidateColumns) with _ | col
    · simp only [hm] at h
      exact Or.inl h
    · simp only [hm] at h
      rcases mem_dictInsert _ _ _ _ h with h | h
      · exact Or.inl h
      · right
        subst h
        exact ⟨rfl, rfl, rfl⟩

theorem reconStep_unmatched_sub (a : UpdateAgentM) (st : ReconState) (fact : FactIn)
    (u : PyVal) (h : u ∈ (reconStep a st fact).unmatchedFacts) :
    u ∈ st.unmatchedFacts ∨
      (hasValue fact.value = true ∧
        matchFactToColumn a (pyStrip fact.concept) (coerceCandidateColumns fact.candidateColumns) = Option.none ∧
        u = unmatchedEntry (pyStrip fact.concept) fact.value (coerceCandidateColumns fact.candidateColumns)) := by
  unfold reconStep at h
  rcases hv : hasValue fact.value with _ | _
  · simp only [hv, Bool.not_false, if_true] at h
    exact Or.inl h
  · simp only [hv, Bool.not_true, if_false] at h
    rcases hm : matchFactToColumn a (pyStrip fact.concept) (coerceCandidateColumns fact.candidateColumns) with _ | col
    · simp only [hm] at h
      rcases List.mem_append.mp h with h | h
      · exact Or.inl h
      · exact Or.inr ⟨rfl, rfl, List.mem_singleton.mp h⟩
    · simp only [hm] at h
      exact Or.inl h

theorem reconStep_empty_mono (a : UpdateAgentM) (st : ReconState) (fact : FactIn)
    (x : PyVal) (h : x ∈ st.emptyFacts) : x ∈ (reconStep a st fact).emptyFacts := by
  unfold reconStep
  rcases hv : hasValue fact.value with _ | _
  · simp only [hv, Bool.not_false, if_true]
    exact List.mem_append.mpr (Or.inl h)
  · simp only [hv, Bool.not_true, if_false]
    rcases matchFactToColumn a (pyStrip fact.concept) (coerceCandidateColumns fact.candidateColumns) with _ | col
    · exact h
    · exact h

theorem reconStep_unmatched_mono (a : UpdateAgentM) (st : ReconState) (fact : FactIn)
    (x : PyVal) (h : x ∈ st.unmatchedFacts) : x ∈ (reconStep a st fact).unmatchedFacts := by
  unfold reconStep
  rcases hv : hasValue fact.value with _ | _
  · simp only [hv, Bool.not_false, if_true]
    exact h
  · simp only [hv, Bool.not_true, if_false]
    rcases matchFactToColumn a (pyStrip fact.concept) (coerceCandidateColumns fact.candidateColumns) with _ | col
    · exact List.mem_append.mpr (Or.inl h)
    · exact h

theorem reconStep_empty_self (a : UpdateAgentM) (st : ReconState) (fact : FactIn)
    (hv : hasValue fact.value = false) :
    emptyEntry (pyStrip fact.concept) (coerceCandidateColumns fact.candidateColumns)
      ∈ (reconStep a st fact).emptyFacts := by
  unfold reconStep
  simp only [hv, Bool.not_false, if_true]
  exact List.mem_append.mpr (Or.inr (List.mem_singleton.mpr rfl))

theorem reconStep_unmatched_self (a : UpdateAgentM) (st : ReconState) (fact : FactIn)
    (hv : hasValue fact.value = true)
    (hm : matchFactToColumn a (pyStrip fact.concept) (coerceCandidateColumns fact.candidateColumns) = Option.none) :
    unmatchedEntry (pyStrip fact.concept) fact.value (coerceCandidateColumns fact.candidateColumns)
      ∈ (reconStep a st fact).unmatchedFacts := by
  unfold reconStep
  simp only [hv, Bool.not_true, if_false, hm]
  exact List.mem_append.mpr (Or.inr (List.mem_singleton.mpr rfl))

theorem foldl_empty_mono (a : UpdateAgentM) :
    ∀ (facts : List FactIn) (st : ReconState) (x : PyVal), x ∈ st.emptyFacts →
      x ∈ (facts.foldl (reconStep a) st).emptyFacts := by
  intro facts
  induction facts with
  | nil => intro st x h; exact h
  | cons fact rest ih =>
      intro st x h
      exact ih _ _ (reconStep_empty_mono a st fact x h)

theorem foldl_unmatched_mono (a : UpdateAgentM) :
    ∀ (facts : List FactIn) (st : ReconState) (x : PyVal), x ∈ st.unmatchedFacts →
      x ∈ (facts.foldl (reconStep a) st).unmatchedFacts := by
  intro facts
  induction facts with
  | nil => intro st x h; exact h
  | cons fact rest ih =>
      intro st x h
      exact ih _ _ (reconStep_unmatched_mono a st fact x h)

theorem foldl_empty_mem (a : UpdateAgentM) :
    ∀ (facts : List FactIn) (st : ReconState) (f : FactIn), f ∈ facts →
      hasValue f.value = false →
      emptyEntry (pyStrip f.concept) (coerceCandidateColumns f.candidateColumns)
        ∈ (facts.foldl (reconStep a) st).emptyFacts := by
  intro facts
  induction facts with
  | nil => intro st f h; exact absurd h (List.not_mem_nil f)
  | cons fact rest ih =>
      intro st f h hv
      rcases List.mem_cons.mp h with h | h
      · subst h
        exact foldl_empty_mono a rest _ _ (reconStep_empty_self a st f hv)
      · exact ih _ f h hv

theorem foldl_unmatched_mem (a : UpdateAgentM) :
    ∀ (facts : List FactIn) (st : ReconState) (f : FactIn), f ∈ facts →
      hasValue f.value = true →
      matchFactToColumn a (pyStrip f.concept) (coerceCandidateColumns f.candidateColumns) = Option.none →
      unmatchedEntry (pyStrip f.concept) f.value (coerceCandidateColumns f.candidateColumns)
        ∈ (facts.foldl (reconStep a) st).unmatchedFacts := by
  intro facts
  induction facts with
  | nil => intro st f h; exact absurd h (List.not_mem_nil f)
  | cons fact rest ih =>
      intro st f h hv hm
      rcases List.mem_cons.mp h with h | h
      · subst h
        exact foldl_unmatched_mono a rest _ _ (reconStep_unmatched_self a st f hv hm)
      · exact ih _ f h hv hm

theorem foldl_applied_sound (a : UpdateAgentM) :
    ∀ (facts : List FactIn) (st : ReconState) (p : String × PyVal),
      p ∈ (facts.foldl (reconStep a) st).appliedUpdates →
      p ∈ st.appliedUpdates ∨
        ∃ g ∈ facts, hasValue g.value = true ∧
          matchFactToColumn a (pyStrip g.concept) (coerceCandidateColumns g.candidateColumns) = some p.1 ∧
          p.2 = g.value := by
  intro facts
  induction facts with
  | nil => intro st p h; exact Or.inl h
  | cons fact rest ih =>
      intro st p h
      rcases ih _ p h with h | ⟨g, hg, hrest⟩
      · rcases reconStep_applied_sub a st fact p h with h | h
        · exact Or.inl h
        · exact Or.inr ⟨fact, List.mem_cons_self fact rest, h⟩
      · exact Or.inr ⟨g, List.mem_cons_of_mem fact hg, hrest⟩

theorem foldl_unmatched_sound (a : UpdateAgentM) :
    ∀ (facts : List FactIn) (st : ReconState) (u : PyVal),
      u ∈ (facts.foldl (reconStep a) st).unmatchedFacts →
      u ∈ st.unmatchedFacts ∨
        ∃ g ∈ facts, hasValue g.value = true ∧
          matchFactToColumn a (pyStrip g.concept) (coerceCandidateColumns g.candidateColumns) = Option.none ∧
          u = unmatchedEntry (pyStrip g.concept) g.value (coerceCandidateColumns g.candidateColumns) := by
  intro facts
  induction facts with
  | nil => intro st u h; exact Or.inl h
  | cons fact rest ih =>
      intro st u h
      rcases ih _ u h with h | ⟨g, hg, hrest⟩
      · rcases reconStep_unmatched_sub a st fact u h with h | h
        · exact Or.inl h
        · exact Or.inr ⟨fact, List.mem_cons_self fact rest, h⟩
      · exact Or.inr ⟨g, List.mem_cons_of_mem fact hg, hrest⟩

instance {ε α : Type} [DecidableEq ε] [DecidableEq α] : DecidableEq (Except ε α) :=
  fun a c =>
    match a, c with
    | Except.error e, Except.error e2 =>
        if h : e = e2 then isTrue (by rw [h]) else isFalse (by intro hc; cases hc; exact h rfl)
    | Except.ok x, Except.ok y =>
        if h : x = y then isTrue (by rw [h]) else isFalse (by intro hc; cases hc; exact h rfl)
    | Except.error _, Except.ok _ => isFalse (by intro hc; cases hc)
    | Except.ok _, Except.error _ => isFalse (by intro hc; cases hc)

theorem crmWrites_sound (a : UpdateAgentM) (ticketId recordId : String)
    (facts : List FactIn) (rid : String) (payload : List (String × PyVal))
    (h : (rid, payload) ∈ (applyEnrichment a ticketId recordId facts).crmWrites)
    (col : String) (v : PyVal) (hcv : (col, v) ∈ payload) :
    ∃ g ∈ facts, hasValue g.value = true ∧
      matchFactToColumn a (pyStrip g.concept) (coerceCandidateColumns g.candidateColumns) = some col ∧
      v = g.value := by
  unfold applyEnrichment at h
  rcases he : facts.isEmpty with _ | _
  · simp only [he, Bool.false_eq_true, if_false] at h
    rcases ha : (reconcileFacts a facts).appliedUpdates.isEmpty with _ | _
    · simp only [ha, Bool.not_false, if_true] at h
      rcases List.mem_singleton.mp h with h
      have hpayload : payload = (reconcileFacts a facts).appliedUpdates := congrArg Prod.snd h
      subst hpayload
      rcases foldl_applied_sound a facts _ (col, v) hcv with habs | ⟨g, hg, hgv, hgm, hge⟩
      · exact absurd habs (List.not_mem_nil _)
      · exact ⟨g, hg, hgv, hgm, hge⟩
    · simp only [ha, Bool.not_true, if_false] at h
      exact absurd h (List.not_mem_nil _)
  · simp only [he, if_true] at h
    exact absurd h (List.not_mem_nil _)

theorem applyEnrichment_escalated (a : UpdateAgentM) (ticketId recordId : String)
    (facts : List FactIn) (hne : facts.isEmpty = false) :
    (applyEnrichment a ticketId recordId facts).escalated =
      escalationPayload (reconcileFacts a facts) := by
  unfold applyEnrichment
  simp only [hne, Bool.false_eq_true, if_false]

theorem escalated_get_unmatched (a : UpdateAgentM) (ticketId recordId : String)
    (facts : List FactIn) (hne : facts.isEmpty = false)
    (h : (reconcileFacts a facts).unmatchedFacts ≠ []) :
    pyGet (((applyEnrichment a ticketId recordId facts).escalated).getD PyVal.none)
        "unmatched_facts" = some (PyVal.list (reconcileFacts a facts).unmatchedFacts) := by
  rw [applyEnrichment_escalated a ticketId recordId facts hne]
  unfold escalationPayload
  have hu : (reconcileFacts a facts).unmatchedFacts.isEmpty = false := by
    rcases hx : (reconcileFacts a facts).unmatchedFacts with _ | _
    · exact absurd hx h
    · rfl
  simp only [hu, Bool.false_eq_true, if_false]
  rcases he : (reconcileFacts a facts).emptyFacts.isEmpty with _ | _
  · simp [pyGet, dictGet?]
  · simp [pyGet, dictGet?]

theorem escalated_get_empty (a : UpdateAgentM) (ticketId recordId : String)
    (facts : List FactIn) (hne : facts.isEmpty = false)
    (h : (reconcileFacts a facts).emptyFacts ≠ []) :
    pyGet (((applyEnrichment a ticketId recordId facts).escalated).getD PyVal.none)
        "empty_facts" = some (PyVal.list (reconcileFacts a facts).emptyFacts) := by
  rw [applyEnrichment_escalated a ticketId recordId facts hne]
  unfold escalationPayload
  have hem : (reconcileFacts a facts).emptyFacts.isEmpty = false := by
    rcases hx : (reconcileFacts a facts).emptyFacts with _ | _
    · exact absurd hx h
    · rfl
  simp only [hem, Bool.false_eq_true, if_false]
  rcases hu : (reconcileFacts a facts).unmatchedFacts.isEmpty with _ | _
  · simp [pyGet, dictGet?]
  · simp [pyGet, dictGet?]

theorem unmatchedEntry_inj_value {c1 c2 : String} {v1 v2 : PyVal} {l1 l2 : List String}
    (h : unmatchedEntry c1 v1 l1 = unmatchedEntry c2 v2 l2) : v1 = v2 := by
  simp only [unmatchedEntry, PyVal.dict.injEq, List.cons.injEq, Prod.mk.injEq] at h
  exact h.2.1.2

/-- C1: on Scenario C the Fact Reconciler does return status `skipped` with
the fact escalated inside `unmatched_facts`; but feeding that escalation
payload verbatim as the Schema Proposer's evidence summary — exactly what
`run_scenario` does — yields an EMPTY proposal, because `propose_change` only
reads the key `unknown_fields`, which the escalation payload does not carry.
The claimed `NEW_METRIC`/`NUMERIC` column is not produced; the last conjunct
shows it IS produced when the same data arrives under `unknown_fields`, the
shape the proposer's own test suite supplies. -/
theorem c1_escalation_payload_yields_empty_schema_proposal :
    (applyEnrichment (mkUpdateAgent (some ["BUSINESS_NAME"])) "T-1" "row-1"
        [{ concept := "new_metric", value := PyVal.f (mkRat 25 2) }]).status = "skipped" ∧
    (applyEnrichment (mkUpdateAgent (some ["BUSINESS_NAME"])) "T-1" "row-1"
        [{ concept := "new_metric", value := PyVal.f (mkRat 25 2) }]).escalated =
      some (PyVal.dict [("unmatched_facts",
        PyVal.list [unmatchedEntry "new_metric" (PyVal.f (mkRat 25 2)) []])]) ∧
    escalationToProposal stubWrite Option.none "dataset" [] "T-1"
        (applyEnrichment (mkUpdateAgent (some ["BUSINESS_NAME"])) "T-1" "row-1"
          [{ concept := "new_metric", value := PyVal.f (mkRat 25 2) }]) =
      some (Except.ok { ticketId := "T-1", columns := [], migrationPath := Option.none
                        migrationStatements := [], notes := some "No unknown fields supplied" }, []) ∧
    ((proposeChange stubWrite Option.none "dataset" [] "T-1"
        (PyVal.dict [("unknown_fields",
          PyVal.dict [("new_metric", PyVal.f (mkRat 25 2))])])).1.map
      (fun r => r.columns.map (fun c => (c.name, c.dataType)))) =
      Except.ok [("NEW_METRIC", "NUMERIC")] := by
  decide

/-- C3 counterexample: with two facts sharing the concept `"METRIC"`, one
empty-valued and one non-empty, the empty fact is bucketed into `empty_facts`
as claimed, yet its concept IS a key of the payload passed to the record
writer (written on behalf of the other fact) — refuting the claim that the
concept of an empty-valued fact never appears in the write payload. -/
theorem c3_counterexample_concept_of_empty_fact_in_payload :
    hasValue (PyVal.s "") = false ∧
    (applyEnrichment (mkUpdateAgent Option.none) "T" "R"
        [{ concept := "METRIC", value := PyVal.s "" },
         { concept := "METRIC", value := PyVal.s "5" }]).crmWrites =
      [("R", [("METRIC", PyVal.s "5")])] ∧
    (applyEnrichment (mkUpdateAgent Option.none) "T" "R"
        [{ concept := "METRIC", value := PyVal.s "" },
         { concept := "METRIC", value := PyVal.s "5" }]).escalated =
      some (PyVal.dict [("empty_facts", PyVal.list [emptyEntry "METRIC" []])]) := by
  decide

/-- C3 (amended): every fact with an empty value (None, blank string, empty
container) is bucketed into `empty_facts` and handed to the escalator under
the `empty_facts` key, never appears in `unmatched_facts`, and no entry of the
payload passed to the record writer originates from it: every written pair
comes from a fact whose value is non-empty. (The fact's concept can still
appear as a write key when a different, non-empty fact maps to the same
column, which is what the counterexample exhibits.) -/
theorem c3_empty_facts_bucketed_never_written
    (allowed : Option (List String)) (llm : Option (Except Unit (Option String)))
    (ticketId recordId : String) (facts : List FactIn) (f : FactIn)
    (hf : f ∈ facts) (hv : hasValue f.value = false) :
    emptyEntry (pyStrip f.concept) (coerceCandidateColumns f.candidateColumns)
      ∈ (reconcileFacts (mkUpdateAgent allowed llm) facts).emptyFacts ∧
    unmatchedEntry (pyStrip f.concept) f.value (coerceCandidateColumns f.candidateColumns)
      ∉ (reconcileFacts (mkUpdateAgent allowed llm) facts).unmatchedFacts ∧
    (∃ entries,
      pyGet (((applyEnrichment (mkUpdateAgent allowed llm) ticketId recordId facts).escalated).getD PyVal.none)
          "empty_facts" = some (PyVal.list entries) ∧
      emptyEntry (pyStrip f.concept) (coerceCandidateColumns f.candidateColumns) ∈ entries) ∧
    (∀ rid payload,
      (rid, payload) ∈ (applyEnrichment (mkUpdateAgent allowed llm) ticketId recordId facts).crmWrites →
      ∀ col v, (col, v) ∈ payload →
        ∃ g ∈ facts, hasValue g.value = true ∧
          matchFactToColumn (mkUpdateAgent allowed llm) (pyStrip g.concept)
              (coerceCandidateColumns g.candidateColumns) = some col ∧
          v = g.value) := by
  have hne : facts.isEmpty = false := by
    rcases facts with _ | _
    · exact absurd hf (List.not_mem_nil f)
    · rfl
  have hmem : emptyEntry (pyStrip f.concept) (coerceCandidateColumns f.candidateColumns)
      ∈ (reconcileFacts (mkUpdateAgent allowed llm) facts).emptyFacts :=
    foldl_empty_mem (mkUpdateAgent allowed llm) facts _ f hf hv
  refine ⟨hmem, ?_, ?_, ?_⟩
  · intro hu
    rcases foldl_unmatched_sound (mkUpdateAgent allowed llm) facts _ _ hu with habs | ⟨g, _, hgv, _, hge⟩
    · exact absurd habs (List.not_mem_nil _)
    · have : f.value = g.value := unmatchedEntry_inj_value hge
      rw [← this] at hgv
      rw [hv] at hgv
      exact Bool.false_ne_true hgv
  · refine ⟨(reconcileFacts (mkUpdateAgent allowed llm) facts).emptyFacts, ?_, hmem⟩
    refine escalated_get_empty _ _ _ _ hne ?_
    intro hnil
    rw [hnil] at hmem
    exact absurd hmem (List.not_mem_nil _)
  · intro rid payload hp col v hcv
    exact crmWrites_sound _ _ _ _ _ _ hp _ _ hcv

/-- Witness for C3 (amended) at a whitespace-valued fact. -/
theorem c3_empty_facts_bucketed_never_written_witness :
    ((⟨"note", PyVal.s "  ", Option.none⟩ : FactIn) ∈
        [(⟨"note", PyVal.s "  ", Option.none⟩ : FactIn)]) ∧
    hasValue (PyVal.s "  ") = false ∧
    (emptyEntry (pyStrip (FactIn.concept ⟨"note", PyVal.s "  ", Option.none⟩))
        (coerceCandidateColumns (FactIn.candidateColumns ⟨"note", PyVal.s "  ", Option.none⟩))
      ∈ (reconcileFacts (mkUpdateAgent Option.none Option.none)
          [(⟨"note", PyVal.s "  ", Option.none⟩ : FactIn)]).emptyFacts) := by
  refine ⟨List.mem_singleton.mpr rfl, by decide, ?_⟩
  exact (c3_empty_facts_bucketed_never_written Option.none Option.none "T" "R"
    [(⟨"note", PyVal.s "  ", Option.none⟩ : FactIn)] _
    (List.mem_singleton.mpr rfl) (by decide)).1

/-- C6: with an allowed-column schema configured, once a fact's candidate
hints resolve to no column and its normalized concept is not in the lookup,
the token-subset rule fires only when the concept's alphanumeric tokens are a
subset of exactly one known column's token set: a successful match pins down
a singleton filter, two or more qualifying columns force no match, and such a
fact (when non-empty) is escalated inside `unmatched_facts` while every pair
written to the record writer originates from some fact with a resolved
column. -/
theorem c6_token_subset_requires_unique_column
    (a : UpdateAgentM) (nf : List String) (ha : a.allowedFields = some nf)
    (concept : String) (candidates : List String)
    (hcand : ∀ c ∈ candidates, resolveCandidateColumn a c = Option.none)
    (hdirect : normalizeLabel concept = "" ∨
      dictGet? a.columnLookup (normalizeLabel concept) = Option.none) :
    (∀ col, matchFactToColumn a concept candidates = some col →
      (a.columnTokens.filter (fun p => subsetTokens (tokensFromLabel concept) p.2)).map (·.1)
        = [col]) ∧
    (2 ≤ (a.columnTokens.filter (fun p => subsetTokens (tokensFromLabel concept) p.2)).length →
      matchFactToColumn a concept candidates = Option.none) ∧
    (∀ (ticketId recordId : String) (facts : List FactIn) (f : FactIn),
      f ∈ facts → pyStrip f.concept = concept →
      coerceCandidateColumns f.candidateColumns = candidates →
      hasValue f.value = true →
      2 ≤ (a.columnTokens.filter (fun p => subsetTokens (tokensFromLabel concept) p.2)).length →
      unmatchedEntry concept f.value candidates ∈ (reconcileFacts a facts).unmatchedFacts ∧
      (∃ entries,
        pyGet (((applyEnrichment a ticketId recordId facts).escalated).getD PyVal.none)
            "unmatched_facts" = some (PyVal.list entries) ∧
        unmatchedEntry concept f.value candidates ∈ entries) ∧
      (∀ rid payload,
        (rid, payload) ∈ (applyEnrichment a ticketId recordId facts).crmWrites →
        ∀ col v, (col, v) ∈ payload →
          ∃ g ∈ facts,
            matchFactToColumn a (pyStrip g.concept) (coerceCandidateColumns g.candidateColumns)
              = some col ∧ v = g.value)) := by
  have hfind : candidates.findSome? (resolveCandidateColumn a) = Option.none := by
    rw [List.findSome?_eq_none_iff]
    exact hcand
  have hif : (if normalizeLabel concept = "" then Option.none
      else dictGet? a.columnLookup (normalizeLabel concept)) = Option.none := by
    rcases hdirect with hd | hd
    · simp [hd]
    · split
      · rfl
      · exact hd
  have hmatch : matchFactToColumn a concept candidates =
      (if (tokensFromLabel concept).isEmpty then Option.none
       else
        match a.columnTokens.filter (fun p => subsetTokens (tokensFromLabel concept) p.2) with
        | [m] => some m.1
        | _ => Option.none) := by
    simp only [matchFactToColumn, ha, hfind, hif]
  have hnone : 2 ≤ (a.columnTokens.filter (fun p => subsetTokens (tokensFromLabel concept) p.2)).length →
      matchFactToColumn a concept candidates = Option.none := by
    intro hlen
    rw [hmatch]
    rcases ht : (tokensFromLabel concept).isEmpty with _ | _
    · simp only [ht, Bool.false_eq_true, if_false]
      rcases hfil : a.columnTokens.filter (fun p => subsetTokens (tokensFromLabel concept) p.2) with _ | ⟨m, rest⟩
      · rw [hfil]
      · rcases rest with _ | _
        · rw [hfil] at hlen
          simp at hlen
        · rw [hfil]
    · simp only [ht, if_true]
  refine ⟨?_, hnone, ?_⟩
  · intro col hcol
    rw [hmatch] at hcol
    rcases ht : (tokensFromLabel concept).isEmpty with _ | _
    · rw [ht] at hcol
      simp only [Bool.false_eq_true, if_false] at hcol
      rcases hfil : a.columnTokens.filter (fun p => subsetTokens (tokensFromLabel concept) p.2) with _ | ⟨m, rest⟩
      · rw [hfil] at hcol
        exact absurd hcol (by simp)
      · rcases rest with _ | ⟨m2, rest2⟩
        · rw [hfil] at hcol
          simp only [Option.some.injEq] at hcol
          rw [hfil, ← hcol]
          rfl
        · rw [hfil] at hcol
          exact absurd hcol (by simp)
    · rw [ht] at hcol
      simp at hcol
  · intro ticketId recordId facts f hf hconcept hcands hv hlen
    have hm : matchFactToColumn a (pyStrip f.concept) (coerceCandidateColumns f.candidateColumns)
        = Option.none := by
      rw [hconcept, hcands]
      exact hnone hlen
    have hne : facts.isEmpty = false := by
      rcases facts with _ | _
      · exact absurd hf (List.not_mem_nil f)
      · rfl
    have hmem : unmatchedEntry concept f.value candidates ∈ (reconcileFacts a facts).unmatchedFacts := by
      have := foldl_unmatched_mem a facts ⟨[], [], [], []⟩ f hf hv hm
      rw [hconcept, hcands] at this
      exact this
    refine ⟨hmem, ?_, ?_⟩
    · refine ⟨(reconcileFacts a facts).unmatchedFacts, ?_, hmem⟩
      refine escalated_get_unmatched a ticketId recordId facts hne ?_
      intro hnil
      rw [hnil] at hmem
      exact absurd hmem (List.not_mem_nil _)
    · intro rid payload hp col v hcv
      rcases crmWrites_sound a ticketId recordId facts rid payload hp col v hcv with ⟨g, hg, _, hgm, hge⟩
      exact ⟨g, hg, hgm, hge⟩

/-- Witness for C6 with columns `A_B` and `A_C` and concept `"a"`, whose
single token is a subset of both columns' tokens: two qualifying columns, no
match, escalation. -/
theorem c6_token_subset_requires_unique_column_witness :
    ((mkUpdateAgent (some ["A_B", "A_C"])).allowedFields = some ["A_B", "A_C"]) ∧
    (2 ≤ ((mkUpdateAgent (some ["A_B", "A_C"])).columnTokens.filter
        (fun p => subsetTokens (tokensFromLabel "a") p.2)).length) ∧
    matchFactToColumn (mkUpdateAgent (some ["A_B", "A_C"])) "a" [] = Option.none ∧
    unmatchedEntry "a" (PyVal.s "x") [] ∈
      (reconcileFacts (mkUpdateAgent (some ["A_B", "A_C"]))
        [{ concept := "a", value := PyVal.s "x" }]).unmatchedFacts := by
  refine ⟨by decide, by decide, ?_, ?_⟩
  · exact (c6_token_subset_requires_unique_column (mkUpdateAgent (some ["A_B", "A_C"]))
      ["A_B", "A_C"] (by decide) "a" [] (by decide) (by decide)).2.1 (by decide)
  · exact ((c6_token_subset_requires_unique_column (mkUpdateAgent (some ["A_B", "A_C"]))
      ["A_B", "A_C"] (by decide) "a" [] (by decide) (by decide)).2.2 "T" "R"
      [{ concept := "a", value := PyVal.s "x" }] _ (List.mem_singleton.mpr rfl)
      (by decide) (by decide) (by decide) (by decide)).1

/-- C7 counterexample: in open-schema mode a fact hinted at column
`"business name"` is written under `"BUSINESS_NAME"` — the hinted name is
normalized (uppercased, non-alphanumerics to underscores), not used verbatim
as the claim states. -/
theorem c7_counterexample_hint_not_verbatim :
    (applyEnrichment (mkUpdateAgent Option.none) "T" "R"
        [{ concept := "x", value := PyVal.s "v", candidateColumns := some ["business name"] }]).crmWrites
      = [("R", [("BUSINESS_NAME", PyVal.s "v")])] ∧
    ("BUSINESS_NAME" : String) ≠ "business name" ∧
    normalizeLabel "business name" = "BUSINESS_NAME" := by
  decide

/-- C7 (amended): when no allowed-column schema is configured, the matcher
returns the NORMALIZED form (`_normalize_label`: uppercase, non-alphanumeric
runs collapsed to underscores, outer underscores stripped) of the first
candidate hint whose normalization is nonempty, or of the concept otherwise —
the name is trusted without consulting any schema, but it is not the hinted
string verbatim; a non-empty fact with such a name is written under it. -/
theorem c7_open_schema_writes_normalized_name
    (llm : Option (Except Unit (Option String))) (f : FactIn) (ticketId recordId : String)
    (hv : hasValue f.value = true) :
    matchFactToColumn (mkUpdateAgent Option.none llm) (pyStrip f.concept)
        (coerceCandidateColumns f.candidateColumns) =
      (match (coerceCandidateColumns f.candidateColumns).findSome?
          (fun c => let n := normalizeLabel c; if n = "" then Option.none else some n) with
       | some n => some n
       | Option.none =>
           if normalizeLabel (pyStrip f.concept) = "" then Option.none
           else some (normalizeLabel (pyStrip f.concept))) ∧
    (∀ col,
      matchFactToColumn (mkUpdateAgent Option.none llm) (pyStrip f.concept)
          (coerceCandidateColumns f.candidateColumns) = some col →
      (applyEnrichment (mkUpdateAgent Option.none llm) ticketId recordId [f]).crmWrites
          = [(recordId, [(col, f.value)])] ∧
      (applyEnrichment (mkUpdateAgent Option.none llm) ticketId recordId [f]).status
          = "updated") := by
  constructor
  · rfl
  · intro col hcol
    have hrecon : reconcileFacts (mkUpdateAgent Option.none llm) [f] =
        { appliedUpdates := [(col, f.value)]
          appliedDetails :=
            [{ concept := if pyStrip f.concept = "" then col else pyStrip f.concept
               column := col, value := f.value
               candidates := coerceCandidateColumns f.candidateColumns }]
          unmatchedFacts := [], emptyFacts := [] } := by
      unfold reconcileFacts
      simp only [List.foldl_cons, List.foldl_nil]
      unfold reconStep
      simp only [hv, Bool.not_true, Bool.false_eq_true, if_false, hcol]
      rfl
    unfold applyEnrichment
    rw [hrecon]
    exact ⟨rfl, rfl⟩

/-- Witness for C7 (amended): the hint `"business name"` yields the write key
`"BUSINESS_NAME"`. -/
theorem c7_open_schema_writes_normalized_name_witness :
    hasValue (PyVal.s "v") = true ∧
    (applyEnrichment (mkUpdateAgent Option.none Option.none) "T" "R"
        [{ concept := "x", value := PyVal.s "v", candidateColumns := some ["business name"] }]).crmWrites
      = [("R", [("BUSINESS_NAME", PyVal.s "v")])] := by
  refine ⟨by decide, ?_⟩
  exact ((c7_open_schema_writes_normalized_name Option.none
    { concept := "x", value := PyVal.s "v", candidateColumns := some ["business name"] }
    "T" "R" (by decide)).2 "BUSINESS_NAME" (by decide)).1

theorem proposeChange_stub_fst_const (llmOutcome : Option (Except Unit (List PyVal)))
    (tableName ticketId : String) (evidence : PyVal)
    (st st2 : List (String × List String)) :
    (proposeChange stubWrite llmOutcome tableName st ticketId evidence).1 =
    (proposeChange stubWrite llmOutcome tableName st2 ticketId evidence).1 := by
  unfold proposeChange
  dsimp only
  split
  · rfl
  · split <;> rfl

/-- C8: the Schema Proposer with a stub migration writer and no LLM is
deterministic and idempotent: invoking `propose_change` a second time with
the identical ticket and evidence summary (from whatever writer state the
first call left behind) returns the identical result — in particular the same
column proposals and the same migration statements, in the same order. -/
theorem c8_proposeChange_idempotent_with_stub_writer
    (ticketId : String) (evidence : PyVal) (st : List (String × List String)) :
    (proposeChange stubWrite Option.none "dataset"
        ((proposeChange stubWrite Option.none "dataset" st ticketId evidence).2)
        ticketId evidence).1
      = (proposeChange stubWrite Option.none "dataset" st ticketId evidence).1 :=
  proposeChange_stub_fst_const Option.none "dataset" ticketId evidence _ st

/-- Whitespace skipped between JSON tokens (`json` module: space, tab,
newline, carriage return). -/
def isJsonWsChar (c : Char) : Bool := c = ' ' || c = '\t' || c = '\n' || c = '\r'

def skipJsonWs (cs : List Char) : List Char := cs.dropWhile isJsonWsChar

def hexVal? (c : Char) : Option Nat :=
  if c.isDigit then some (c.toNat - 48)
  else
    let l := c.toLower
    if 'a' ≤ l && l ≤ 'f' then some (l.toNat - 87) else Option.none

/-- JSON string body parser (after the opening quote), strict mode: raw
control characters are rejected, the eight short escapes and `\uXXXX` are
decoded, surrogate pairs are combined. Model restriction: a lone surrogate
escape (accepted by Python as an unpaired code unit) is rejected, since Lean
chars are Unicode scalars. Returns the decoded content and the input after
the closing quote. -/
def parseJsonStringGo : Nat → List Char → Option (List Char × List Char)
  | 0, _ => Option.none
  | fuel + 1, cs =>
      match cs with
      | [] => Option.none
      | '"' :: rest => some ([], rest)
      | '\\' :: 'u' :: h1 :: h2 :: h3 :: h4 :: rest =>
          match hexVal? h1, hexVal? h2, hexVal? h3, hexVal? h4 with
          | some a, some c, some d, some e =>
              let n := ((a * 16 + c) * 16 + d) * 16 + e
              if 0xD800 ≤ n && n ≤ 0xDBFF then
                match rest with
                | '\\' :: 'u' :: k1 :: k2 :: k3 :: k4 :: rest2 =>
                    match hexVal? k1, hexVal? k2, hexVal? k3, hexVal? k4 with
                    | some a2, some c2, some d2, some e2 =>
                        let m := ((a2 * 16 + c2) * 16 + d2) * 16 + e2
                        if 0xDC00 ≤ m && m ≤ 0xDFFF then
                          (parseJsonStringGo fuel rest2).map
                            (fun p => (Char.ofNat (0x10000 + (n - 0xD800) * 0x400 + (m - 0xDC00)) :: p.1, p.2))
                        else Option.none
                    | _, _, _, _ => Option.none
                | _ => Option.none
              else if 0xDC00 ≤ n && n ≤ 0xDFFF then Option.none
              else (parseJsonStringGo fuel rest).map (fun p => (Char.ofNat n :: p.1, p.2))
          | _, _, _, _ => Option.none
      | '\\' :: esc :: rest =>
          let decoded : Option Char :=
            if esc = '"' then some '"'
            else if esc = '\\' then some '\\'
            else if esc = '/' then some '/'
            else if esc = 'b' then some '\x08'
            else if esc = 'f' then some '\x0c'
            else if esc = 'n' then some '\n'
            else if esc = 'r' then some '\r'
            else if esc = 't' then some '\t'
            else Option.none
          match decoded with
          | some c => (parseJsonStringGo fuel rest).map (fun p => (c :: p.1, p.2))
          | Option.none => Option.none
      | c :: rest =>
          if c.toNat < 0x20 then Option.none
          else (parseJsonStringGo fuel rest).map (fun p => (c :: p.1, p.2))

def digitsToNat (cs : List Char) : Nat :=
  cs.foldl (fun n c => n * 10 + (c.toNat - 48)) 0

/-- The `json` module's NUMBER_RE: `-?(0|[1-9]\d*)(\.\d+)?([eE][+-]?\d+)?`,
yielding a Python int for a bare integer lexeme and a float (here an exact
rational; Python rounds to binary) when a fraction or exponent is present.
Model restriction: the module's optional `NaN`/`Infinity` constants are not
representable as rationals and are rejected. -/
def parseJsonNumber (cs : List Char) : Option (PyVal × List Char) :=
  let signed := match cs with
    | '-' :: r => (true, r)
    | _ => (false, cs)
  let neg := signed.1
  let cs1 := signed.2
  match cs1 with
  | [] => Option.none
  | c :: _ =>
      if !c.isDigit then Option.none
      else
        let intPart :=
          if c = '0' then (([c] : List Char), cs1.tail)
          else (cs1.takeWhile Char.isDigit, cs1.dropWhile Char.isDigit)
        let intDs := intPart.1
        let rest1 := intPart.2
        let fracPart :=
          match rest1 with
          | '.' :: r =>
              let ds := r.takeWhile Char.isDigit
              if ds.isEmpty then (([] : List Char), rest1)
              else (ds, r.dropWhile Char.isDigit)
          | _ => (([] : List Char), rest1)
        let fracDs := fracPart.1
        let rest2 := fracPart.2
        let expPart :=
          match rest2 with
          | e :: r =>
              if e = 'e' || e = 'E' then
                let sgn := match r with
                  | '+' :: rr => (false, rr)
                  | '-' :: rr => (true, rr)
                  | _ => (false, r)
                let ds := sgn.2.takeWhile Char.isDigit
                if ds.isEmpty then (([] : List Char), false, rest2, false)
                else (ds, sgn.1, sgn.2.dropWhile Char.isDigit, true)
              else (([] : List Char), false, rest2, false)
          | _ => (([] : List Char), false, rest2, false)
        let expDs := expPart.1
        let expNeg := expPart.2.1
        let rest3 := expPart.2.2.1
        let hasExp := expPart.2.2.2
        if fracDs.isEmpty && !hasExp then
          some (PyVal.i (if neg then -(digitsToNat intDs : Int) else (digitsToNat intDs : Int)), rest3)
        else
          let mant : Rat := (digitsToNat (intDs ++ fracDs) : Nat)
          let e : Int := (if expNeg then -(digitsToNat expDs : Int) else (digitsToNat expDs : Int))
            - (fracDs.length : Int)
          let q : Rat := mant * (10 : Rat) ^ e
          some (PyVal.f (if neg then -q else q), rest3)

mutual

/-- `json.JSONDecoder().raw_decode` value scanner: the value must start at the
head of the input (no leading whitespace); returns the parsed value and the
unconsumed input. -/
def parseJsonValue : Nat → List Char → Option (PyVal × List Char)
  | 0, _ => Option.none
  | fuel + 1, cs =>
      match cs with
      | '{' :: rest =>
          match skipJsonWs rest with
          | '}' :: rest2 => some (PyVal.dict [], rest2)
          | cs2 => parseJsonMembers fuel cs2 []
      | '[' :: rest =>
          match skipJsonWs rest with
          | ']' :: rest2 => some (PyVal.list [], rest2)
          | cs2 => parseJsonElements fuel cs2 []
      | '"' :: rest => (parseJsonStringGo (fuel + 1) rest).map (fun p => (PyVal.s ⟨p.1⟩, p.2))
      | 't' :: rest => if rest.take 3 = ['r', 'u', 'e'] then some (PyVal.b true, rest.drop 3) else Option.none
      | 'f' :: rest => if rest.take 4 = ['a', 'l', 's', 'e'] then some (PyVal.b false, rest.drop 4) else Option.none
      | 'n' :: rest => if rest.take 3 = ['u', 'l', 'l'] then some (PyVal.none, rest.drop 3) else Option.none
      | _ => parseJsonNumber cs

/-- Object member loop (input positioned at a key). Duplicate keys overwrite
in place, as Python dict construction does. -/
def parseJsonMembers : Nat → List Char → List (String × PyVal) → Option (PyVal × List Char)
  | 0, _, _ => Option.none
  | fuel + 1, cs, acc =>
      match cs with
      | '"' :: rest =>
          match parseJsonStringGo (fuel + 1) rest with
          | Option.none => Option.none
          | some (key, rest1) =>
              match skipJsonWs rest1 with
              | ':' :: rest2 =>
                  match parseJsonValue fuel (skipJsonWs rest2) with
                  | Option.none => Option.none
                  | some (v, rest3) =>
                      let acc2 := dictInsert acc ⟨key⟩ v
                      match skipJsonWs rest3 with
                      | '}' :: rest4 => some (PyVal.dict acc2, rest4)
                      | ',' :: rest4 => parseJsonMembers fuel (skipJsonWs rest4) acc2
                      | _ => Option.none
              | _ => Option.none
      | _ => Option.none

/-- Array element loop (input positioned at a value). -/
def parseJsonElements : Nat → List Char → List PyVal → Option (PyVal × List Char)
  | 0, _, _ => Option.none
  | fuel + 1, cs, acc =>
      match parseJsonValue fuel cs with
      | Option.none => Option.none
      | some (v, rest) =>
          match skipJsonWs rest with
          | ']' :: rest2 => some (PyVal.list (acc ++ [v]), rest2)
          | ',' :: rest2 => parseJsonElements fuel (skipJsonWs rest2) (acc ++ [v])
          | _ => Option.none

end

/-- `decoder.raw_decode(cleaned, index)`: attempt a decode at position `i`,
returning the value and the index just past it. -/
def rawDecodeAt (cs : List Char) (i : Nat) : Option (PyVal × Nat) :=
  (parseJsonValue (cs.length + 1) (cs.drop i)).map (fun p => (p.1, cs.length - p.2.length))

/-- What the scan loop keeps from one successful decode: a dict itself, or
the dict elements of a decoded array; any other value is dropped. -/
def jsonScanFlatten (v : PyVal) : List PyVal :=
  match v with
  | PyVal.dict _ => [v]
  | PyVal.list items =>
      items.filter (fun it => match it with | PyVal.dict _ => true | _ => false)
  | _ => []

/-- The scan loop of `QueryAgent._decode_json_strings`: walk left to right;
at each `{` or `[` attempt a decode, advancing to the consumed offset on
success (so positions inside a decoded span are never revisited) or one
character on failure. -/
def scanGo (cs : List Char) : Nat → Nat → List PyVal → List PyVal
  | 0, _, acc => acc
  | fuel + 1, i, acc =>
      if h : i < cs.length then
        let c := cs.get ⟨i, h⟩
        if c = '{' || c = '[' then
          match rawDecodeAt cs i with
          | Option.none => scanGo cs fuel (i + 1) acc
          | some p => scanGo cs fuel p.2 (acc ++ jsonScanFlatten p.1)
        else scanGo cs fuel (i + 1) acc
      else acc

/-- Locate the leftmost occurrence of three backticks followed only by
whitespace up to the end (the second `re.sub` of `_decode_json_strings`). -/
def fenceTruncGo : List Char → Nat → Option Nat
  | [], _ => Option.none
  | c :: rest, j =>
      if (c :: rest).take 3 = ['`', '`', '`'] && ((c :: rest).drop 3).all isPyWsChar then some j
      else fenceTruncGo rest (j + 1)

/-- The Markdown-fence stripping of `_decode_json_strings`: when the text
starts with three backticks, remove a leading ```` ```json ```` or ```` ``` ````
line, then remove the trailing fence (backticks followed only by whitespace
up to the end). -/
def stripFences (cleaned : String) : String :=
  if cleaned.data.take 3 = ['`', '`', '`'] then
    let c1 :=
      if ("```json\n".data).isPrefixOf cleaned.data then (⟨cleaned.data.drop 8⟩ : String)
      else if ("```\n".data).isPrefixOf cleaned.data then (⟨cleaned.data.drop 4⟩ : String)
      else cleaned
    match fenceTruncGo c1.data 0 with
    | some j => ⟨c1.data.take j⟩
    | Option.none => c1
  else cleaned

/-- `QueryAgent._decode_json_strings`: strip, strip fences, scan left to
right. Total by construction — the model of "never raises". -/
def decodeJsonStrings (text : String) : List PyVal :=
  if pyStrip text = "" then []
  else
    scanGo (stripFences (pyStrip text)).data
      ((stripFences (pyStrip text)).data.length + 1) 0 []

/-- Collapse runs of spaces (after every non-alphanumeric has been mapped to
a space, this yields the `\s+ → " "` pass of `QueryAgent._normalize`). -/
def collapseSpaceRuns : List Char → List Char
  | [] => []
  | [c] => [c]
  | c :: d :: rest =>
      if c = ' ' && d = ' ' then collapseSpaceRuns (d :: rest)
      else c :: collapseSpaceRuns (d :: rest)

/-- `QueryAgent._normalize`: lowercase, replace every character outside
`[a-z0-9\s]` by a space, collapse whitespace runs, strip. -/
def normalizeText (text : String) : String :=
  let mapped := (text.data.map Char.toLower).map (fun c => if isLowerAlnumChar c then c else ' ')
  ⟨pyStripChars (collapseSpaceRuns mapped)⟩

/-- The module-level `DEFAULT_SYNONYMS` table. -/
def defaultSynonyms : List (String × List String) :=
  [("BUSINESS_NAME", ["business name", "name"]),
   ("LOCATION_CITY", ["city"]),
   ("RECORD_STATUS", ["status"]),
   ("LOCATION_STATE_CODE", ["state", "state code"]),
   ("LOCATION_COUNTRY", ["country"])]

/-- Substring containment, Python's `pat in hay`. -/
def containsSub (pat : List Char) : List Char → Bool
  | [] => pat.isPrefixOf []
  | c :: rest => pat.isPrefixOf (c :: rest) || containsSub pat rest

def strContains (hay pat : String) : Bool := containsSub pat.data hay.data

def strStarts (s p : String) : Bool := p.data.isPrefixOf s.data

def strEnds (s p : String) : Bool := p.data.reverse.isPrefixOf s.data.reverse

def countChar (c : Char) (s : String) : Nat := (s.data.filter (fun d => d == c)).length

/-- `QueryAgent._column_synonyms`: the static table entry for the uppercased
column plus the derived phrasings, dropping empties (a set in the source;
list membership models it). -/
def columnSynonyms (column : String) : List String :=
  let base := (dictGet? defaultSynonyms (asciiUpper column)).getD []
  let derived := [normalizeText column, asciiLower (replaceAllStr column "_" " ")]
  (base ++ derived).filter (fun p => p ≠ "")

/-- Python's `str.split()` (split on whitespace runs, no empty tokens). -/
def splitWsFold (cs : List Char) : List (List Char) :=
  cs.foldr
    (fun c acc =>
      if isPyWsChar c then [] :: acc
      else
        match acc with
        | [] => [[c]]
        | h :: t => (c :: h) :: t)
    []

def pySplitWs (s : String) : List String :=
  ((splitWsFold s.data).filter (fun t => !t.isEmpty)).map (fun t => (⟨t⟩ : String))

/-- `QueryAgent._column_tokens_in_question` with `TOKEN_MIN_LENGTH = 3`. -/
def columnTokensInQuestion (column question : String) : Bool :=
  if column = "" then false
  else
    let columnTokens := (pySplitWs column).filter (fun t => 3 ≤ t.length)
    if columnTokens.isEmpty then false
    else
      let questionTokens := pySplitWs question
      columnTokens.all (fun t => questionTokens.contains t)

/-- The dedup-and-truncate tail of `_infer_columns_from_question` (appends
unseen candidates, stopping once `max_columns` is reached). -/
def uniqueUpTo (maxColumns : Nat) : List String → List String → List String
  | [], acc => acc
  | c :: rest, acc =>
      let acc2 := if acc.contains c then acc else acc ++ [c]
      if maxColumns ≤ acc2.length then acc2 else uniqueUpTo maxColumns rest acc2

/-- `QueryAgent._infer_columns_from_question`: heuristic column matching via
synonym-phrase containment or column-token containment, deduplicated and
truncated. -/
def inferColumnsFromQuestion (question : String) (row : List (String × PyVal))
    (maxColumns : Nat) : List String :=
  let nq := normalizeText question
  if nq = "" then []
  else
    let candidates := row.foldl
      (fun acc p =>
        if (columnSynonyms p.1).any (fun phrase => strContains nq phrase) then acc ++ [p.1]
        else if columnTokensInQuestion (normalizeText p.1) nq then acc ++ [p.1]
        else acc)
      []
    uniqueUpTo maxColumns candidates []

/-- `QueryAgent._build_column_lookup`: exact-uppercase and alnum-sanitized
keys resolving to the original column spelling (Python builds it from a set;
the input list order models the set's iteration order). -/
def buildColumnLookupQ (columns : List String) : List (String × String) :=
  columns.foldl
    (fun lookup column =>
      let label := pyStrip column
      if label = "" then lookup
      else
        let upper := asciiUpper label
        let lookup := dictInsert lookup upper column
        let sanitized := normalizeLabel upper
        if sanitized = "" then lookup else dictInsert lookup sanitized column)
    []

/-- `QueryAgent._resolve_column_hint` (`if not valid_columns` passes raw
hints straight through when the lookup is absent or empty). -/
def resolveColumnHint (candidate : String)
    (validColumns : Option (List (String × String))) : Option String :=
  let cleaned := pyStrip candidate
  if cleaned = "" then Option.none
  else
    match validColumns with
    | Option.none => some cleaned
    | some [] => some cleaned
    | some d =>
        let upper := asciiUpper cleaned
        match dictGet? d upper with
        | some r => some r
        | Option.none =>
            match dictGet? d (normalizeLabel upper) with
            | some r => some r
            | Option.none => some cleaned

/-- `QueryAgent._normalize_column_candidates`: resolve each hint and
deduplicate preserving order. -/
def normalizeColumnCandidates (candidates : List String)
    (validColumns : Option (List (String × String))) : List String :=
  candidates.foldl
    (fun acc c =>
      match resolveColumnHint c validColumns with
      | Option.none => acc
      | some r => if acc.contains r then acc else acc ++ [r])
    []

def pyIsDict : PyVal → Bool
  | PyVal.dict _ => true
  | _ => false

/-- `QueryAgent._iter_json_payloads`: decode every text block of a response
(a response is modelled by the list of text blocks
`_extract_response_text_blocks` reads off its duck-typed shape). -/
def iterJsonPayloads (blocks : List String) : List PyVal :=
  (blocks.map decodeJsonStrings).flatten

/-- The payload loop of `QueryAgent._extract_column_selection`: the first
payload whose `columns` (or, failing that, `column_names`) list normalizes to
a nonempty selection wins. -/
def extractColumnSelectionGo (lookup : List (String × String)) : List PyVal → List String
  | [] => []
  | payload :: rest =>
      if pyIsDict payload then
        let fromKey := fun (k : String) =>
          match pyGet payload k with
          | some (PyVal.list items) =>
              normalizeColumnCandidates
                (items.filterMap (fun it => if pyIsNone it then Option.none else some (pyStr it)))
                (some lookup)
          | _ => []
        let n1 := fromKey "columns"
        if !n1.isEmpty then n1
        else
          let n2 := fromKey "column_names"
          if !n2.isEmpty then n2
          else extractColumnSelectionGo lookup rest
      else extractColumnSelectionGo lookup rest

/-- `QueryAgent._select_columns_with_llm`: the completion call's outcome is
the argument (prompt construction is pure and elided); a raised call is
caught and degrades to the empty selection. -/
def selectColumnsWithLLM (outcome : Except Unit (List String))
    (lookup : List (String × String)) : List String :=
  match outcome with
  | Except.error _ => []
  | Except.ok blocks => extractColumnSelectionGo lookup (iterJsonPayloads blocks)

/-- The two completion calls `answer_question` may issue, each modelled by
its outcome: `error` for a raised call, `ok blocks` for a response with the
given text blocks. -/
structure QueryLLM where
  columnsResp : Except Unit (List String)
  factsResp : Except Unit (List String)

/-- `QueryAgent` configuration (`llm = none` models `llm_client is None`). -/
structure QueryAgentM where
  primaryKeyColumn : String := "BRIZO_ID"
  tableName : String := "dataset"
  maxColumns : Nat := 3
  candidateUrlFields : Option (List String) := Option.none
  contextColumns : Option (List String) := Option.none
  datasetColumns : Option (List String) := Option.none
  llm : Option QueryLLM := Option.none

/-- `QueryAgent._build_select_statement`. -/
def buildSelectStatement (a : QueryAgentM) (recordId : String) : String :=
  "SELECT * FROM " ++ a.tableName ++ " WHERE " ++ a.primaryKeyColumn ++ " = '"
    ++ replaceAllStr recordId "'" "''" ++ "' LIMIT 1"

def dedupByUpperGo (seen : List String) : List String → List String
  | [] => []
  | c :: rest =>
      let key := asciiUpper c
      if seen.contains key then dedupByUpperGo seen rest
      else c :: dedupByUpperGo (key :: seen) rest

/-- `QueryAgent._list_available_columns`: a truthy configured catalog is
deduplicated by uppercase preserving order, else the row's own keys. -/
def listAvailableColumns (a : QueryAgentM) (row : List (String × PyVal)) : List String :=
  match a.datasetColumns with
  | some (c :: cs) => dedupByUpperGo [] (c :: cs)
  | _ => row.map (·.1)

/-- `QueryAgent._select_columns`: LLM round first when a client is present,
heuristic fallback, then normalization against the lookup and truncation to
`max_columns`. -/
def selectColumns (a : QueryAgentM) (question : String) (row : List (String × PyVal))
    (availableColumns : List String) : List String :=
  let lookup := buildColumnLookupQ availableColumns
  let chosen :=
    match a.llm with
    | some l => if !availableColumns.isEmpty then selectColumnsWithLLM l.columnsResp lookup else []
    | Option.none => []
  let chosen := if chosen.isEmpty then inferColumnsFromQuestion question row a.maxColumns else chosen
  let normalized := normalizeColumnCandidates chosen (some lookup)
  if a.maxColumns ≠ 0 ∧ a.maxColumns < normalized.length then normalized.take a.maxColumns
  else normalized

/-- A fact dict as produced by the Query Resolver (optional keys are
`Option`/default fields). -/
structure FactOut where
  concept : String
  value : PyVal
  origin : String
  confidence : Option Rat := Option.none
  notes : Option String := Option.none
  sources : List String := []
  candidateColumns : Option (List String) := Option.none
deriving DecidableEq, Repr

/-- `QueryAgent._column_to_concept`. -/
def columnToConcept (column : String) : String :=
  let normalized := normalizeText column
  if normalized = "" then asciiLower (pyStrip column)
  else replaceAllStr normalized " " "_"

/-- `QueryAgent._fact_from_column`. -/
def factFromColumn (column : String) (value : PyVal) (origin : String)
    (confidence : Option Rat) : FactOut :=
  { concept := columnToConcept column, value, origin, confidence
    candidateColumns := some [column] }

/-- `QueryAgent._collect_direct_facts`: one dataset-origin, confidence-1 fact
per matched column with a non-empty value. -/
def collectDirectFacts (row : List (String × PyVal)) (columns : List String) : List FactOut :=
  columns.filterMap
    (fun column =>
      let value := (dictGet? row column).getD PyVal.none
      if hasValue value then some (factFromColumn column value "dataset" (some 1))
      else Option.none)

/-- `isinstance(confidence, (int, float))` — Python booleans are ints, so
`True`/`False` count as numeric 1/0. -/
def toNumeric? : PyVal → Option Rat
  | PyVal.b true => some 1
  | PyVal.b false => some 0
  | PyVal.i n => some (n : Rat)
  | PyVal.f q => some q
  | _ => Option.none

/-- `max(0.0, min(1.0, float(confidence)))`. -/
def clamp01 (q : Rat) : Rat := max 0 (min 1 q)

/-- `QueryAgent._canonicalise_concept`. -/
def canonicaliseConcept (concept : String) : String :=
  let lowered := asciiLower (pyStrip concept)
  if lowered = "" then ""
  else
    ⟨stripUnderscores (collapseRuns
      (lowered.data.map (fun c => if isLowerAlnumChar c then c else '_')))⟩

/-- `QueryAgent._normalize_sources`. -/
def normalizeSources (src : Option PyVal) : List String :=
  let items :=
    match src with
    | some (PyVal.list xs) => xs
    | some v => [v]
    | Option.none => [PyVal.none]
  items.filterMap
    (fun it =>
      if pyIsNone it then Option.none
      else
        let t := pyStrip (pyStr it)
        if t = "" then Option.none else some t)

/-- `isinstance(item, (str, int, float))` — booleans included via `int`. -/
def isCandidateScalar : PyVal → Bool
  | PyVal.s _ => true
  | PyVal.i _ => true
  | PyVal.f _ => true
  | PyVal.b _ => true
  | _ => false

/-- The per-entry body of the `_parse_fact_payload` loop: an entry is kept
when the concept is a string with nonempty canonicalization and the value is
non-empty; numeric confidence is clamped into `[0,1]`, absent or non-numeric
confidence defaults to 0.6 unless the origin is `dataset`. -/
def parseFactEntry (origin : String) (validColumns : Option (List (String × String)))
    (entry : PyVal) : Option FactOut :=
  if !pyIsDict entry then Option.none
  else
    match pyGetD entry "concept" with
    | PyVal.s conceptStr =>
        let value := pyGetD entry "value"
        if !hasValue value then Option.none
        else
          let concept := canonicaliseConcept conceptStr
          if concept = "" then Option.none
          else
            let confidence :=
              match toNumeric? (pyGetD entry "confidence") with
              | some q => some (clamp01 q)
              | Option.none => if origin ≠ "dataset" then some (mkRat 6 10) else Option.none
            let notes :=
              match pyGetD entry "notes" with
              | PyVal.s t => if pyStrip t ≠ "" then some (pyStrip t) else Option.none
              | _ => Option.none
            let sources := normalizeSources (pyGet entry "sources")
            let rawCandidates :=
              match pyGet entry "candidate_columns" with
              | some (PyVal.list items) =>
                  items.filterMap
                    (fun it =>
                      if isCandidateScalar it ∧ pyStrip (pyStr it) ≠ "" then some (pyStrip (pyStr it))
                      else Option.none)
              | _ =>
                  let hint :=
                    if pyTruthy (pyGetD entry "column_hint") then pyGetD entry "column_hint"
                    else if pyTruthy (pyGetD entry "field") then pyGetD entry "field"
                    else if pyTruthy (pyGetD entry "column") then pyGetD entry "column"
                    else pyGetD entry "target"
                  match hint with
                  | PyVal.s h => if pyStrip h ≠ "" then [pyStrip h] else []
                  | _ => []
            let candidateColumns :=
              if rawCandidates.isEmpty then Option.none
              else
                let normalized := normalizeColumnCandidates rawCandidates validColumns
                if normalized.isEmpty then Option.none else some normalized
            some { concept, value, origin, confidence, notes, sources, candidateColumns }
    | _ => Option.none

/-- `QueryAgent._parse_fact_payload`. -/
def parseFactPayload (payload : PyVal) (origin : String)
    (validColumns : Option (List (String × String))) : List FactOut :=
  match pyGet payload "facts" with
  | some (PyVal.list entries) => entries.filterMap (parseFactEntry origin validColumns)
  | _ => []

/-- The payload loop of `QueryAgent._extract_facts_from_response`. -/
def extractFactsGo (origin : String) : List PyVal → List FactOut
  | [] => []
  | payload :: rest =>
      if pyIsDict payload then
        let facts := parseFactPayload payload origin Option.none
        if !facts.isEmpty then facts else extractFactsGo origin rest
      else extractFactsGo origin rest

/-- `QueryAgent._resolve_facts_with_llm`: a raised completion call is caught
and degrades to no facts. -/
def resolveFactsWithLLM (outcome : Except Unit (List String)) : List FactOut :=
  match outcome with
  | Except.error _ => []
  | Except.ok blocks => extractFactsGo "llm" (iterJsonPayloads blocks)

/-- `QueryAgent._resolve_facts`: direct column values win; otherwise one LLM
round when a client is configured. -/
def resolveFacts (a : QueryAgentM) (row : List (String × PyVal))
    (columns : List String) : List FactOut :=
  let direct := collectDirectFacts row columns
  if !direct.isEmpty then direct
  else
    match a.llm with
    | Option.none => []
    | some l => resolveFactsWithLLM l.factsResp

/-- `record_utils._MISSING_TEXT` and `_is_missing_text`. -/
def missingTextTokens : List String := ["na", "n/a", "none", "null", "nan"]

def isMissingText (value : String) : Bool :=
  let stripped := pyStrip value
  if stripped = "" then true else missingTextTokens.contains (asciiLower stripped)

def defaultContextColumns : List String :=
  ["BUSINESS_NAME", "ALTERNATE_NAME", "PARENT_NAME", "CHAIN_NAME",
   "LOCATION_CITY", "LOCATION_STATE_CODE", "LOCATION_COUNTRY"]

/-- `record_utils.build_record_context`. -/
def buildRecordContext (row : Option (List (String × PyVal)))
    (columns : Option (List String)) : List (String × PyVal) :=
  match row with
  | Option.none => []
  | some r =>
      if r.isEmpty then []
      else
        (columns.getD defaultContextColumns).foldl
          (fun context column =>
            let value := (dictGet? r column).getD PyVal.none
            if pyIsNone value then context
            else
              match value with
              | PyVal.s t => if isMissingText t then context else dictInsert context column value
              | _ => dictInsert context column value)
          []

/-- `record_utils.looks_like_url` (`isalpha` at ASCII fidelity). -/
def looksLikeUrl (value : String) : Bool :=
  let text := pyStrip value
  if text = "" then false
  else
    let lowered := asciiLower text
    if strStarts lowered "http://" || strStarts lowered "https://" then true
    else if strStarts lowered "www." then true
    else if strContains lowered " " then false
    else if !strContains lowered "." then false
    else
      let hostCandidate : String := ⟨(splitOnCharGo '/' lowered.data).headD []⟩
      1 ≤ countChar '.' hostCandidate ∧ !strEnds hostCandidate "." ∧
        hostCandidate.data.any Char.isAlpha

/-- `record_utils.normalize_url`. -/
def normalizeUrl (value : String) : Option String :=
  let text := pyStrip value
  if !looksLikeUrl text then Option.none
  else
    let lowered := asciiLower text
    let base :=
      if strStarts lowered "http://" || strStarts lowered "https://" then text
      else if strStarts lowered "www." then "https://" ++ text
      else "https://" ++ text
    some ⟨(base.data.reverse.dropWhile (fun c => c == '/')).reverse⟩

/-- `record_utils.extract_candidate_urls`. -/
def extractCandidateUrls (row : Option (List (String × PyVal)))
    (candidateFields : Option (List String)) : List String :=
  match row with
  | Option.none => []
  | some r =>
      if r.isEmpty then []
      else
        (candidateFields.getD (r.map (·.1))).foldl
          (fun acc column =>
            let value := (dictGet? r column).getD PyVal.none
            if !pyTruthy value then acc
            else
              match normalizeUrl (pyStr value) with
              | Option.none => acc
              | some normalized =>
                  if acc.contains normalized then acc else acc ++ [normalized])
          []

/-- `QueryAgent._determine_answer_origin` (a set of origin tags in the
source; an order-preserving dedup models it). -/
def determineAnswerOrigin (facts : List FactOut) : Option String :=
  let origins := dedupKeepFirst
    (facts.filterMap (fun f => if f.origin ≠ "" then some f.origin else Option.none))
  match origins with
  | [] => Option.none
  | [o] => if o = "dataset" ∨ o = "scraper" ∨ o = "llm" then some o else some "mixed"
  | _ => some "mixed"

/-- The result dict of `answer_question`, with the (at most one)
`flag_missing` payload the call emitted; keys that the source only sets on
some paths are `Option` fields. -/
structure AnswerResult where
  ticketId : String
  recordId : String
  question : String
  status : String
  facts : List FactOut := []
  candidateUrls : List String := []
  recordContext : Option (List (String × PyVal)) := Option.none
  missingColumns : Option (List String) := Option.none
  answerOrigin : Option String := Option.none
  flaggedMissing : Option PyVal := Option.none
deriving DecidableEq, Repr

/-- `QueryAgent.answer_question`: point-fetch through the SQL executor
(modelled as a function from the statement to rows), then column selection,
fact extraction, and the four-status outcome. Observer events are pure
side-channel logging and are elided. -/
def answerQuestion (a : QueryAgentM) (sqlRun : String → List (List (String × PyVal)))
    (ticketId question recordId : String) : AnswerResult :=
  let row? := (sqlRun (buildSelectStatement a recordId)).head?
  let candidateUrls := extractCandidateUrls row? a.candidateUrlFields
  let recordContext := buildRecordContext row? a.contextColumns
  match row? with
  | Option.none =>
      { ticketId, recordId, question, status := "record_not_found", candidateUrls
        flaggedMissing := some (PyVal.dict
          [("reason", PyVal.s "record_not_found"), ("record_id", PyVal.s recordId)]) }
  | some row =>
      let columns := selectColumns a question row (listAvailableColumns a row)
      if columns.isEmpty then
        { ticketId, recordId, question, status := "unknown_question", candidateUrls
          recordContext := some recordContext
          flaggedMissing := some (PyVal.dict
            ([("reason", PyVal.s "unknown_question")] ++
             (if candidateUrls.isEmpty then []
              else [("candidate_urls", PyVal.list (candidateUrls.map PyVal.s))]) ++
             (if recordContext.isEmpty then []
              else [("record_context", PyVal.dict recordContext)]))) }
      else
        let facts := resolveFacts a row columns
        if facts.isEmpty then
          { ticketId, recordId, question, status := "missing_values", candidateUrls
            missingColumns := some columns
            recordContext := some recordContext
            flaggedMissing := some (PyVal.dict
              ([("reason", PyVal.s "missing_values"),
                ("missing_columns", PyVal.list (columns.map PyVal.s))] ++
               (if candidateUrls.isEmpty then []
                else [("candidate_urls", PyVal.list (candidateUrls.map PyVal.s))]) ++
               (if recordContext.isEmpty then []
                else [("record_context", PyVal.dict recordContext)]))) }
        else
          { ticketId, recordId, question, status := "answered", facts, candidateUrls
            recordContext := if recordContext.isEmpty then Option.none else some recordContext
            answerOrigin := determineAnswerOrigin facts }

theorem jsonScanFlatten_mem (v w : PyVal) (h : v ∈ jsonScanFlatten w) :
    ((v = w) ∨ ∃ items, w = PyVal.list items ∧ v ∈ items) ∧ pyIsDict v = true := by
  unfold jsonScanFlatten at h
  match w with
  | PyVal.dict xs =>
      rcases List.mem_singleton.mp h with h
      subst h
      exact ⟨Or.inl rfl, rfl⟩
  | PyVal.list items =>
      rcases List.mem_filter.mp h with ⟨hm, hd⟩
      refine ⟨Or.inr ⟨items, rfl, hm⟩, ?_⟩
      match v, hd with
      | PyVal.dict _, _ => rfl
  | PyVal.none => exact absurd h (List.not_mem_nil v)
  | PyVal.b _ => exact absurd h (List.not_mem_nil v)
  | PyVal.i _ => exact absurd h (List.not_mem_nil v)
  | PyVal.f _ => exact absurd h (List.not_mem_nil v)
  | PyVal.s _ => exact absurd h (List.not_mem_nil v)

theorem scanGo_sound (cs : List Char) :
    ∀ (fuel i : Nat) (acc : List PyVal) (v : PyVal), v ∈ scanGo cs fuel i acc →
      v ∈ acc ∨ ∃ j p, rawDecodeAt cs j = some p ∧ v ∈ jsonScanFlatten p.1 := by
  intro fuel
  induction fuel with
  | zero => intro i acc v h; exact Or.inl h
  | succ fuel ih =>
      intro i acc v h
      unfold scanGo at h
      by_cases hi : i < cs.length
      · rw [dif_pos hi] at h
        by_cases hc : cs.get ⟨i, hi⟩ = '{' || cs.get ⟨i, hi⟩ = '['
        · rw [if_pos hc] at h
          rcases hd : rawDecodeAt cs i with _ | p
          · rw [hd] at h
            exact ih (i + 1) acc v h
          · rw [hd] at h
            rcases ih p.2 (acc ++ jsonScanFlatten p.1) v h with h2 | h2
            · rcases List.mem_append.mp h2 with h3 | h3
              · exact Or.inl h3
              · exact Or.inr ⟨i, p, hd, h3⟩
            · exact Or.inr h2
        · rw [if_neg hc] at h
          exact ih (i + 1) acc v h
      · rw [dif_neg hi] at h
        exact Or.inl h

theorem scanGo_empty (cs : List Char)
    (hnone : ∀ j, rawDecodeAt cs j = Option.none) :
    ∀ fuel i, scanGo cs fuel i [] = [] := by
  intro fuel
  induction fuel with
  | zero => intro i; rfl
  | succ fuel ih =>
      intro i
      unfold scanGo
      by_cases hi : i < cs.length
      · rw [dif_pos hi]
        by_cases hc : cs.get ⟨i, hi⟩ = '{' || cs.get ⟨i, hi⟩ = '['
        · rw [if_pos hc, hnone i]
          exact ih (i + 1)
        · rw [if_neg hc]
          exact ih (i + 1)
      · rw [dif_neg hi]

/-- C4 (amended): the extractor is a total function (never raises by
construction); every object it returns was decoded by `raw_decode` at some
position of the cleaned text — either the decoded dict itself or a dict
element of a decoded array — and when no position of the cleaned text decodes
at all, the result is the empty list. (As the counterexample shows, the
converse of the first part is weaker than the claim: the left-to-right scan
advances past each successful decode, so an object nested inside a returned
object is decodable at its own position yet not returned separately.) -/
theorem c4_decode_sound_and_empty :
    (∀ (text : String) (v : PyVal), v ∈ decodeJsonStrings text →
      ∃ j p, rawDecodeAt (stripFences (pyStrip text)).data j = some p ∧
        (v = p.1 ∨ ∃ items, p.1 = PyVal.list items ∧ v ∈ items) ∧ pyIsDict v = true) ∧
    (∀ text : String,
      (∀ j, rawDecodeAt (stripFences (pyStrip text)).data j = Option.none) →
      decodeJsonStrings text = []) := by
  constructor
  · intro text v hv
    unfold decodeJsonStrings at hv
    by_cases hc : pyStrip text = ""
    · rw [if_pos hc] at hv
      exact absurd hv (List.not_mem_nil v)
    · rw [if_neg hc] at hv
      rcases scanGo_sound (stripFences (pyStrip text)).data _ 0 [] v hv with h | ⟨j, p, hd, hf⟩
      · exact absurd h (List.not_mem_nil v)
      · rcases jsonScanFlatten_mem v p.1 hf with ⟨hor, hdict⟩
        exact ⟨j, p, hd, hor, hdict⟩
  · intro text hnone
    unfold decodeJsonStrings
    by_cases hc : pyStrip text = ""
    · rw [if_pos hc]
    · rw [if_neg hc]
      exact scanGo_empty _ hnone _ 0

/-- C4 counterexample: on `{"a": {"b": 1}}` the inner object is decodable at
position 6, yet only the outer object is returned — the scan advanced past
the consumed span — so the extractor does NOT return every JSON object
decodable at some `{` position. -/
theorem c4_counterexample_nested_object_not_returned :
    decodeJsonStrings "\x7b\"a\": \x7b\"b\": 1\x7d\x7d" =
      [PyVal.dict [("a", PyVal.dict [("b", PyVal.i 1)])]] ∧
    rawDecodeAt (stripFences (pyStrip "\x7b\"a\": \x7b\"b\": 1\x7d\x7d")).data 6 =
      some (PyVal.dict [("b", PyVal.i 1)], 14) ∧
    PyVal.dict [("b", PyVal.i 1)] ∉ decodeJsonStrings "\x7b\"a\": \x7b\"b\": 1\x7d\x7d" := by
  decide

/-- Witness for C4 (amended): the soundness part applied to JSON embedded in
prose, and the empty part applied to a fully non-JSON text (positions past
the end decode to nothing, positions inside by computation). -/
theorem c4_decode_sound_and_empty_witness :
    (∃ j p, rawDecodeAt (stripFences (pyStrip "noise \x7b\"k\": 2\x7d tail")).data j = some p ∧
      (PyVal.dict [("k", PyVal.i 2)] = p.1 ∨
        ∃ items, p.1 = PyVal.list items ∧ PyVal.dict [("k", PyVal.i 2)] ∈ items) ∧
      pyIsDict (PyVal.dict [("k", PyVal.i 2)]) = true) ∧
    decodeJsonStrings "hello" = [] := by
  constructor
  · exact c4_decode_sound_and_empty.1 "noise \x7b\"k\": 2\x7d tail"
      (PyVal.dict [("k", PyVal.i 2)]) (by decide)
  · refine c4_decode_sound_and_empty.2 "hello" ?_
    intro j
    by_cases hj : j < 5
    · interval_cases j <;> decide
    · have hdrop : (stripFences (pyStrip "hello")).data.drop j = [] := by
        apply List.drop_eq_nil_of_le
        have : (stripFences (pyStrip "hello")).data.length = 5 := by decide
        omega
      unfold rawDecodeAt
      rw [hdrop]
      decide

theorem collectDirectFacts_mem (row : List (String × PyVal)) (columns : List String)
    (c : String) (hc : c ∈ columns)
    (hv : hasValue ((dictGet? row c).getD PyVal.none) = true) :
    factFromColumn c ((dictGet? row c).getD PyVal.none) "dataset" (some 1)
      ∈ collectDirectFacts row columns := by
  unfold collectDirectFacts
  refine List.mem_filterMap.mpr ⟨c, hc, ?_⟩
  dsimp only
  rw [hv]
  rfl

/-- C5: whenever the point lookup finds a row and at least one column matched
to the question carries a non-empty value, `answer_question` returns status
`answered`, and its facts contain, for EVERY matched non-empty column, the
dataset-origin fact with confidence 1 derived from that column. -/
theorem c5_direct_nonempty_column_answers
    (a : QueryAgentM) (sqlRun : String → List (List (String × PyVal)))
    (ticketId question recordId : String) (row : List (String × PyVal))
    (hrow : (sqlRun (buildSelectStatement a recordId)).head? = some row)
    (c : String)
    (hc : c ∈ selectColumns a question row (listAvailableColumns a row))
    (hv : hasValue ((dictGet? row c).getD PyVal.none) = true) :
    (answerQuestion a sqlRun ticketId question recordId).status = "answered" ∧
    ∀ c2 ∈ selectColumns a question row (listAvailableColumns a row),
      hasValue ((dictGet? row c2).getD PyVal.none) = true →
      factFromColumn c2 ((dictGet? row c2).getD PyVal.none) "dataset" (some 1)
        ∈ (answerQuestion a sqlRun ticketId question recordId).facts := by
  have hcols : (selectColumns a question row (listAvailableColumns a row)).isEmpty = false := by
    rcases hx : selectColumns a question row (listAvailableColumns a row) with _ | _
    · rw [hx] at hc
      exact absurd hc (List.not_mem_nil c)
    · rfl
  have hdirect : (collectDirectFacts row (selectColumns a question row (listAvailableColumns a row))).isEmpty = false := by
    rcases hx : collectDirectFacts row (selectColumns a question row (listAvailableColumns a row)) with _ | _
    · have := collectDirectFacts_mem row _ c hc hv
      rw [hx] at this
      exact absurd this (List.not_mem_nil _)
    · rfl
  have hfacts : resolveFacts a row (selectColumns a question row (listAvailableColumns a row))
      = collectDirectFacts row (selectColumns a question row (listAvailableColumns a row)) := by
    unfold resolveFacts
    dsimp only
    rw [hdirect]
    rfl
  have hres : answerQuestion a sqlRun ticketId question recordId =
      { ticketId, recordId, question, status := "answered"
        facts := collectDirectFacts row (selectColumns a question row (listAvailableColumns a row))
        candidateUrls := extractCandidateUrls (some row) a.candidateUrlFields
        recordContext :=
          if (buildRecordContext (some row) a.contextColumns).isEmpty then Option.none
          else some (buildRecordContext (some row) a.contextColumns)
        answerOrigin := determineAnswerOrigin
          (collectDirectFacts row (selectColumns a question row (listAvailableColumns a row))) } := by
    unfold answerQuestion
    rw [hrow]
    simp only [hcols, Bool.false_eq_true, if_false, hfacts, hdirect]
  rw [hres]
  exact ⟨rfl, fun c2 hc2 hv2 => collectDirectFacts_mem row _ c2 hc2 hv2⟩

/-- Witness for C5: Scenario A — the question matches `BUSINESS_NAME`, whose
value is non-empty, and the answer carries the dataset fact. -/
theorem c5_direct_nonempty_column_answers_witness :
    (("BUSINESS_NAME" : String) ∈ selectColumns {} "What is the business name?"
        [("ID", PyVal.s "abc"), ("BUSINESS_NAME", PyVal.s "Cafe Example"),
         ("LOCATION_CITY", PyVal.s "Florence")]
        (listAvailableColumns {}
          [("ID", PyVal.s "abc"), ("BUSINESS_NAME", PyVal.s "Cafe Example"),
           ("LOCATION_CITY", PyVal.s "Florence")])) ∧
    (answerQuestion {}
        (fun _ => [[("ID", PyVal.s "abc"), ("BUSINESS_NAME", PyVal.s "Cafe Example"),
          ("LOCATION_CITY", PyVal.s "Florence")]])
        "T-A" "What is the business name?" "abc").status = "answered" ∧
    factFromColumn "BUSINESS_NAME" (PyVal.s "Cafe Example") "dataset" (some 1)
      ∈ (answerQuestion {}
          (fun _ => [[("ID", PyVal.s "abc"), ("BUSINESS_NAME", PyVal.s "Cafe Example"),
            ("LOCATION_CITY", PyVal.s "Florence")]])
          "T-A" "What is the business name?" "abc").facts := by
  have h := c5_direct_nonempty_column_answers {}
    (fun _ => [[("ID", PyVal.s "abc"), ("BUSINESS_NAME", PyVal.s "Cafe Example"),
      ("LOCATION_CITY", PyVal.s "Florence")]])
    "T-A" "What is the business name?" "abc"
    [("ID", PyVal.s "abc"), ("BUSINESS_NAME", PyVal.s "Cafe Example"),
     ("LOCATION_CITY", PyVal.s "Florence")]
    rfl "BUSINESS_NAME" (by decide) (by decide)
  refine ⟨by decide, h.1, ?_⟩
  have h2 := h.2 "BUSINESS_NAME" (by decide) (by decide)
  exact h2

theorem clamp01_of_neg {q : Rat} (h : q < 0) : clamp01 q = 0 := by
  unfold clamp01
  rw [min_eq_right (le_of_lt (lt_trans h zero_lt_one)), max_eq_left (le_of_lt h)]

theorem clamp01_of_gt_one {q : Rat} (h : 1 < q) : clamp01 q = 1 := by
  unfold clamp01
  rw [min_eq_left (le_of_lt h), max_eq_right zero_le_one]

theorem clamp01_of_mem {q : Rat} (h0 : 0 ≤ q) (h1 : q ≤ 1) : clamp01 q = q := by
  unfold clamp01
  rw [min_eq_right h1, max_eq_right h0]

theorem parseFactEntry_some (origin : String)
    (validColumns : Option (List (String × String))) (entry : PyVal)
    (conceptStr : String)
    (hdict : pyIsDict entry = true)
    (hc : pyGetD entry "concept" = PyVal.s conceptStr)
    (hcc : canonicaliseConcept conceptStr ≠ "")
    (hv : hasValue (pyGetD entry "value") = true) :
    ∃ fact, parseFactEntry origin validColumns entry = some fact ∧
      fact.confidence =
        (match toNumeric? (pyGetD entry "confidence") with
         | some q => some (clamp01 q)
         | Option.none => if origin ≠ "dataset" then some (mkRat 6 10) else Option.none) := by
  unfold parseFactEntry
  rw [hdict, hc]
  dsimp only
  rw [hv]
  simp only [Bool.not_true, Bool.false_eq_true, if_false, if_neg hcc]
  exact ⟨_, rfl, rfl⟩

/-- C9: a parsed fact entry whose `confidence` field is numeric is stored
with confidence clamped into `[0,1]` — below 0 becomes 0, above 1 becomes 1,
in-range values pass through unchanged — and the entry is never rejected for
an out-of-range confidence: the fact still lands in the payload's parsed
fact list. -/
theorem c9_numeric_confidence_clamped (origin : String)
    (validColumns : Option (List (String × String))) (entry : PyVal)
    (conceptStr : String) (q : Rat)
    (hdict : pyIsDict entry = true)
    (hc : pyGetD entry "concept" = PyVal.s conceptStr)
    (hcc : canonicaliseConcept conceptStr ≠ "")
    (hv : hasValue (pyGetD entry "value") = true)
    (hq : toNumeric? (pyGetD entry "confidence") = some q) :
    ∃ fact, parseFactEntry origin validColumns entry = some fact ∧
      fact.confidence = some (clamp01 q) ∧
      (q < 0 → fact.confidence = some 0) ∧
      (1 < q → fact.confidence = some 1) ∧
      (0 ≤ q → q ≤ 1 → fact.confidence = some q) ∧
      (∀ payload entries, pyGet payload "facts" = some (PyVal.list entries) →
        entry ∈ entries → fact ∈ parseFactPayload payload origin validColumns) := by
  rcases parseFactEntry_some origin validColumns entry conceptStr hdict hc hcc hv with ⟨fact, hp, hconf⟩
  rw [hq] at hconf
  dsimp only at hconf
  refine ⟨fact, hp, hconf, ?_, ?_, ?_, ?_⟩
  · intro h
    rw [hconf, clamp01_of_neg h]
  · intro h
    rw [hconf, clamp01_of_gt_one h]
  · intro h0 h1
    rw [hconf, clamp01_of_mem h0 h1]
  · intro payload entries hfacts hentry
    unfold parseFactPayload
    rw [hfacts]
    exact List.mem_filterMap.mpr ⟨entry, hentry, hp⟩

/-- Witness for C9: a scraper fact with confidence 1.7 is stored with
confidence 1, inside the parsed payload. -/
theorem c9_numeric_confidence_clamped_witness :
    ∃ fact,
      parseFactEntry "scraper" Option.none
          (PyVal.dict [("concept", PyVal.s "revenue"), ("value", PyVal.s "10"),
            ("confidence", PyVal.f (mkRat 17 10))]) = some fact ∧
      fact.confidence = some 1 ∧
      fact ∈ parseFactPayload
        (PyVal.dict [("facts", PyVal.list
          [PyVal.dict [("concept", PyVal.s "revenue"), ("value", PyVal.s "10"),
            ("confidence", PyVal.f (mkRat 17 10))]])]) "scraper" Option.none := by
  obtain ⟨fact, hp, _, _, hgt, _, hmem⟩ :=
    c9_numeric_confidence_clamped "scraper" Option.none
      (PyVal.dict [("concept", PyVal.s "revenue"), ("value", PyVal.s "10"),
        ("confidence", PyVal.f (mkRat 17 10))])
      "revenue" (mkRat 17 10) (by decide) (by decide) (by decide) (by decide) (by decide)
  exact ⟨fact, hp, hgt (by decide),
    hmem _ _ rfl (List.mem_singleton.mpr rfl)⟩

/-- C10: a parsed fact entry whose origin is not `dataset` and whose
`confidence` field is absent or non-numeric is stored with the default
confidence 0.6. -/
theorem c10_default_confidence_for_non_dataset (origin : String)
    (validColumns : Option (List (String × String))) (entry : PyVal)
    (conceptStr : String)
    (hdict : pyIsDict entry = true)
    (hc : pyGetD entry "concept" = PyVal.s conceptStr)
    (hcc : canonicaliseConcept conceptStr ≠ "")
    (hv : hasValue (pyGetD entry "value") = true)
    (horigin : origin ≠ "dataset")
    (hq : toNumeric? (pyGetD entry "confidence") = Option.none) :
    ∃ fact, parseFactEntry origin validColumns entry = some fact ∧
      fact.confidence = some (mkRat 6 10) ∧
      (∀ payload entries, pyGet payload "facts" = some (PyVal.list entries) →
        entry ∈ entries → fact ∈ parseFactPayload payload origin validColumns) := by
  rcases parseFactEntry_some origin validColumns entry conceptStr hdict hc hcc hv with ⟨fact, hp, hconf⟩
  rw [hq] at hconf
  dsimp only at hconf
  rw [if_pos horigin] at hconf
  refine ⟨fact, hp, hconf, ?_⟩
  intro payload entries hfacts hentry
  unfold parseFactPayload
  rw [hfacts]
  exact List.mem_filterMap.mpr ⟨entry, hentry, hp⟩

/-- Witness for C10: an llm-origin fact with a non-numeric confidence string
gets the 0.6 default. -/
theorem c10_default_confidence_for_non_dataset_witness :
    ∃ fact,
      parseFactEntry "llm" Option.none
          (PyVal.dict [("concept", PyVal.s "revenue"), ("value", PyVal.s "10"),
            ("confidence", PyVal.s "high")]) = some fact ∧
      fact.confidence = some (mkRat 6 10) := by
  obtain ⟨fact, hp, hconf, _⟩ :=
    c10_default_confidence_for_non_dataset "llm" Option.none
      (PyVal.dict [("concept", PyVal.s "revenue"), ("value", PyVal.s "10"),
        ("confidence", PyVal.s "high")])
      "revenue" (by decide) (by decide) (by decide) (by decide) (by decide) (by decide)
  exact ⟨fact, hp, hconf⟩

/-- One search directive (`SearchTask` dataclass). -/
structure SearchTask where
  query : String
  topic : String
  description : String
deriving DecidableEq, Repr

/-- The `missing_facts` dict consumed by `plan_research`, with the three keys
it reads (`missing_columns` defaulting to `[]`, the other two to absent). -/
structure MissingFacts where
  missingColumns : List String := []
  candidateUrls : Option (List String) := Option.none
  recordContext : Option (List (String × PyVal)) := Option.none

def joinWith (sep : String) : List String → String
  | [] => ""
  | [x] => x
  | x :: rest => x ++ sep ++ joinWith sep rest

/-- The input after the first occurrence of `pat` (asymptotically
`str.find` + slice). -/
def afterSub? (pat : List Char) : List Char → Option (List Char)
  | [] => Option.none
  | c :: rest =>
      if pat.isPrefixOf (c :: rest) then some ((c :: rest).drop pat.length)
      else afterSub? pat rest

/-- `ScraperAgent._extract_host`, with `urllib.parse.urlparse` modelled at the
fidelity the planner needs: with a `scheme://` (or leading `//`) the netloc
runs to the next `/`, `?` or `#`; otherwise the netloc is empty and the first
`/`-segment of the path is used. (Exotic scheme-like inputs such as
`host:port` without `//`, which urlparse reads as a scheme, are outside the
model.) -/
def extractHost (url : String) : Option String :=
  let t := pyStrip url
  let host : String :=
    match afterSub? "://".data t.data with
    | some rest => ⟨rest.takeWhile (fun c => !(c == '/' || c == '?' || c == '#'))⟩
    | Option.none =>
        if ("//".data).isPrefixOf t.data then
          ⟨(t.data.drop 2).takeWhile (fun c => !(c == '/' || c == '?' || c == '#'))⟩
        else ⟨(splitOnCharGo '/' t.data).headD []⟩
  if host = "" then Option.none else some (asciiLower host)

/-- `ScraperAgent.IGNORED_HOST_KEYWORDS` (a set; membership only). -/
def ignoredHostKeywords : List String :=
  ["foodmetrics", "internal", "example.com", "google.com", "g.page", "goo.gl"]

/-- The per-URL loop of `_candidate_url_tasks` with its seen-host set. -/
def candidateUrlTasksGo (question : String) (seen : List String) :
    List String → List SearchTask
  | [] => []
  | url :: rest =>
      match extractHost url with
      | Option.none => candidateUrlTasksGo question seen rest
      | some host =>
          if ignoredHostKeywords.any (fun kw => strContains host kw) then
            candidateUrlTasksGo question seen rest
          else if seen.contains host then candidateUrlTasksGo question seen rest
          else
            { query := "site:" ++ host ++ " " ++ question, topic := host
              description := "Search " ++ host ++ " for information related to the question" }
              :: candidateUrlTasksGo question (host :: seen) rest

/-- `ScraperAgent._candidate_url_tasks` (`if not candidate_urls` skips the
absent and the empty list alike). -/
def candidateUrlTasks (question : String) (candidateUrls : Option (List String)) :
    List SearchTask :=
  match candidateUrls with
  | some (u :: us) => candidateUrlTasksGo question [] (u :: us)
  | _ => []

/-- `ScraperAgent._extract_company_name`: first preferred identity key with a
stripped nonempty string (blank-but-nonempty strings pass the truthiness
fallback unstripped; other truthy values are stringified). -/
def extractCompanyName (recordContext : Option (List (String × PyVal))) : Option String :=
  match recordContext with
  | Option.none => Option.none
  | some ctx =>
      if ctx.isEmpty then Option.none
      else
        ["BUSINESS_NAME", "ALTERNATE_NAME", "CHAIN_NAME", "PARENT_NAME"].findSome?
          (fun key =>
            match dictGet? ctx key with
            | some (PyVal.s s2) =>
                if pyStrip s2 ≠ "" then some (pyStrip s2)
                else if s2 ≠ "" then some s2
                else Option.none
            | some v => if pyTruthy v then some (pyStr v) else Option.none
            | Option.none => Option.none)

/-- `ScraperAgent._compose_google_query`. -/
def composeGoogleQuery (question : String) (companyName : Option String) : String :=
  let q := pyStrip question
  match companyName with
  | some nm =>
      let base := "\"" ++ nm ++ "\""
      if q ≠ "" then base ++ " " ++ q else base
  | Option.none => if q ≠ "" then "\"" ++ q ++ "\"" else q

/-- `ScraperAgent._replace_placeholders` with the six placeholder spellings
of `_inject_company_name`, applied in the dict's literal order. -/
def replacePlaceholders (value : String) (companyName : String) : String :=
  if value = "" then value
  else
    replaceAllStr
      (replaceAllStr
        (replaceAllStr
          (replaceAllStr
            (replaceAllStr (replaceAllStr value "\x7bcompany\x7d" companyName)
              "\x7bCompany\x7d" companyName)
            "\x7bcompany name\x7d" companyName)
          "\x7bCompany Name\x7d" companyName)
        "\x7bbusiness\x7d" companyName)
      "\x7bBusiness\x7d" companyName

/-- `ScraperAgent._inject_company_name` (applied to query, description and
topic of each task). -/
def injectCompanyName (tasks : List SearchTask) (companyName : String) : List SearchTask :=
  tasks.map (fun t =>
    { query := replacePlaceholders t.query companyName
      topic := replacePlaceholders t.topic companyName
      description := replacePlaceholders t.description companyName })

/-- The per-missing-column task of `plan_research`. -/
def missingColumnTask (companyName : Option String) (question column : String) : SearchTask :=
  let readable := asciiLower (pyStrip (replaceAllStr column "_" " "))
  let terms :=
    (match companyName with
     | some nm => ["\"" ++ nm ++ "\""]
     | Option.none => []) ++
    (if question ≠ "" then [question] else []) ++
    (if readable ≠ "" then [readable] else [])
  let q := joinWith " " terms
  { query := if q = "" then question else q
    topic := column
    description := "Find supporting evidence for missing column '" ++ column ++ "'" }

/-- `ScraperAgent.plan_research`. LLM-proposed tasks enter as `llmTasks`, the
outcome of `_plan_with_llm` (empty when the client is absent, the completion
call raised, or nothing parsed); observer logging is elided. -/
def planResearch (llmTasks : List SearchTask) (question : String)
    (mf : MissingFacts) : List SearchTask :=
  let companyName := extractCompanyName mf.recordContext
  let tasks :=
    (if question ≠ "" then
      [{ query := composeGoogleQuery question companyName, topic := "google"
         description := "General Google search scoped to the company" }]
     else []) ++
    candidateUrlTasks question mf.candidateUrls ++
    llmTasks ++
    (if !mf.missingColumns.isEmpty then
       mf.missingColumns.map (missingColumnTask companyName question)
     else if (match mf.candidateUrls with | some (_ :: _) => false | _ => true) then
       [{ query :=
            (let g :=
              match companyName with
              | some nm => "\"" ++ nm ++ "\" " ++ question
              | Option.none => question
             if g = "" then "company background" else g)
          topic := "general"
          description := "General context gathering for unanswered question" }]
     else [])
  match companyName with
  | some nm => injectCompanyName tasks nm
  | Option.none => tasks

/-- One persisted search finding. -/
structure Finding where
  ticketId : String
  topic : String
  query : String
  rank : Nat
  result : PyVal
deriving DecidableEq, Repr

/-- One `successful_searches` entry. -/
structure SuccessEntry where
  topic : String
  query : String
  description : String
  resultCount : Nat
deriving DecidableEq, Repr

/-- The sequential task loop of `execute_plan`. The search client is a
function returning `Except`; note there is NO handler around the call in the
source, so an error propagates out of the whole loop. -/
def runSearchTasks (search : String → Except Unit (List PyVal)) (ticketId : String) :
    List SearchTask → Except Unit (List Finding × List SuccessEntry)
  | [] => Except.ok ([], [])
  | task :: rest =>
      match search task.query with
      | Except.error e => Except.error e
      | Except.ok results =>
          let fs := results.enum.map (fun p =>
            ({ ticketId, topic := task.topic, query := task.query
               rank := p.1, result := p.2 } : Finding))
          let succ :=
            if results.isEmpty then []
            else
              [({ topic := task.topic, query := task.query
                  description := task.description, resultCount := results.length } : SuccessEntry)]
          match runSearchTasks search ticketId rest with
          | Except.error e => Except.error e
          | Except.ok p => Except.ok (fs ++ p.1, succ ++ p.2)

/-- `ScraperAgent._compose_backfill_prompt`. -/
def composeBackfillPrompt (question : String) (missingColumns : List String)
    (successful : List SuccessEntry) : Option String :=
  if successful.isEmpty then Option.none
  else
    let normalizedColumns := (missingColumns.filter (fun c => pyStrip c ≠ "")).map pyStrip
    let targetClause :=
      if !normalizedColumns.isEmpty then
        "to capture " ++ joinWith ", " (sortedStrings (dedupKeepFirst normalizedColumns))
      else "to capture the missing information"
    let questionText := if pyStrip question ≠ "" then pyStrip question else "the stakeholder's request"
    let successRow := fun (index : Nat) (entry : SuccessEntry) =>
      "[" ++ toString index ++ "]"
        ++ (if pyStrip entry.topic ≠ "" then " Topic: " ++ pyStrip entry.topic else "")
        ++ (if pyStrip entry.query ≠ "" then " | Query: " ++ pyStrip entry.query else "")
        ++ (if pyStrip entry.description ≠ "" then " | Use: " ++ pyStrip entry.description else "")
        ++ " (returned " ++ toString entry.resultCount ++ " result"
        ++ (if entry.resultCount ≠ 1 then "s" else "") ++ ")"
    let lines :=
      ["You are backfilling newly accepted schema fields across the dataset.",
       "Reuse the proven searches below " ++ targetClause ++ " when answering '"
         ++ questionText ++ "'.",
       "For each remaining record:",
       "1. Run the recommended searches, adjusting company/location terms as needed.",
       "2. Pull values from authoritative sources returned by the searches.",
       "3. Capture the source URL for auditing and note any confidence caveats.",
       "Successful searches:"] ++
      (successful.enum.map (fun p => successRow (p.1 + 1) p.2)) ++
      ["Document findings in the evidence log before importing into the CRM."]
    some (joinWith "\n" lines)

/-- The outcome of `execute_plan`. -/
structure ScrapeOutcome where
  tasks : List SearchTask
  findings : List Finding
  successfulSearches : List SuccessEntry
  backfillPrompt : Option String
deriving DecidableEq, Repr

/-- `ScraperAgent.execute_plan`: plan, run the tasks sequentially through the
search client, bulk-persist the findings (the second component of the result
is what was handed to the evidence sink), and synthesize the backfill prompt.
The search calls are NOT wrapped in any handler, so a search exception (an
`Except.error`) escapes the method. -/
def executePlan (search : String → Except Unit (List PyVal))
    (llmTasks : List SearchTask) (ticketId question : String) (mf : MissingFacts) :
    Except Unit (ScrapeOutcome × List Finding) :=
  let tasks := planResearch llmTasks question mf
  match runSearchTasks search ticketId tasks with
  | Except.error e => Except.error e
  | Except.ok p =>
      let sinkAppends := if p.1.isEmpty then [] else p.1
      let missingColumns := mf.missingColumns.filter (fun c => c ≠ "")
      Except.ok
        ({ tasks, findings := p.1, successfulSearches := p.2
           backfillPrompt := composeBackfillPrompt question missingColumns p.2 },
         sinkAppends)

/-- C2 counterexample: a search client that raises makes `execute_plan`
itself return the error — the exception from `search_client.search` is not
caught inside `execute_plan` and escapes it, aborting the ticket. -/
theorem c2_counterexample_search_exception_escapes_execute_plan :
    executePlan (fun _ => Except.error ()) [] "T-1" "q" {} = Except.error () ∧
    planResearch [] "q" {} ≠ [] := by
  constructor
  · rfl
  · decide

/-- C2 (amended): completion-call exceptions are caught inside the issuing
method and degrade to a fallback — `_select_columns_with_llm` returns the
empty selection when its completion call raises — but an exception from
`search_client.search` during `execute_plan` is NOT caught: whenever the plan
is nonempty and every search raises, `execute_plan` propagates the error. -/
theorem c2_completion_caught_but_search_escapes :
    (∀ (lookup : List (String × String)) (e : Unit),
      selectColumnsWithLLM (Except.error e) lookup = []) ∧
    (∀ (search : String → Except Unit (List PyVal)) (llmTasks : List SearchTask)
        (ticketId question : String) (mf : MissingFacts) (e : Unit),
      (∀ q, search q = Except.error e) →
      planResearch llmTasks question mf ≠ [] →
      executePlan search llmTasks ticketId question mf = Except.error e) := by
  constructor
  · intro lookup e
    rfl
  · intro search llmTasks ticketId question mf e hsearch hne
    unfold executePlan
    rcases ht : planResearch llmTasks question mf with _ | ⟨task, rest⟩
    · exact absurd ht hne
    · unfold runSearchTasks
      dsimp only
      rw [hsearch task.query]

/-- Witness for C2 (amended) at an always-raising search client and the
default missing-facts dict (whose plan is nonempty). -/
theorem c2_completion_caught_but_search_escapes_witness :
    selectColumnsWithLLM (Except.error ()) [] = [] ∧
    executePlan (fun _ => Except.error ()) [] "T-1" "q" {} = Except.error () := by
  constructor
  · exact c2_completion_caught_but_search_escapes.1 [] ()
  · exact c2_completion_caught_but_search_escapes.2 (fun _ => Except.error ()) [] "T-1" "q" {}
      () (fun _ => rfl) (by decide)
